import Mathlib

/-!
Shallow embedding of the living-tree showcase (src/living_tree_showcase.js):
the recursive branch generator, the growth integrator, the life-stage state
machine, the pruning engine and the sapling regeneration cycle, together with
theorems checking the specification's claims about them.

JavaScript numbers are modelled as real numbers; the impure calls to
`Math.random()` are modelled as explicit oracle streams threaded through the
definitions, and object allocation is modelled by a monotone allocation
counter (field `alloc`) so that "fresh object" claims become statable.
-/

set_option maxHeartbeats 1000000

noncomputable section

open scoped Classical

/-- Clamp helper of the source: `Math.min(max, Math.max(min, value))`. -/
def clamp (value lo hi : ℝ) : ℝ := min hi (max lo value)

/-- Ease helper of the source: `1 - Math.pow(1 - t, 3)`. -/
def easeOutCubic (t : ℝ) : ℝ := 1 - (1 - t) ^ 3

/-- Seed hash of the source: `(Math.sin(seed * 9341.13) + 1) / 2`. -/
def seededRandom (seed : ℝ) : ℝ := (Real.sin (seed * 9341.13) + 1) / 2

namespace CONFIG

/-- Config constant `maxDepth` of the source. -/
def maxDepth : ℕ := 7

/-- Config constant `growthDelayPerLevel` of the source. -/
def growthDelayPerLevel : ℝ := 0.11

/-- Config constant `baseGrowthSpeed` of the source. -/
def baseGrowthSpeed : ℝ := 0.00022

/-- Config constant `sawRadius` of the source. -/
def sawRadius : ℝ := 28

/-- Config constant `sawCooldown` of the source. -/
def sawCooldown : ℝ := 140

/-- Config constant `fruitDepthStart` of the source. -/
def fruitDepthStart : ℕ := 4

/-- Config constant `saplingMin` of the source. -/
def saplingMin : ℕ := 2

/-- Config constant `saplingMax` of the source. -/
def saplingMax : ℕ := 4

end CONFIG

/-- RGB colour triple of a branch node. -/
structure Color where
  r : ℝ
  g : ℝ
  b : ℝ

/-- One fruit hanging from a leaf branch (lazily created by `drawFruit`). -/
structure Fruit where
  offset : ℝ
  angleOffset : ℝ
  ripeness : ℝ
  counted : Bool

/-- Branch node of the recursive tree.  `alloc` is the allocation tag that
models object identity (each JavaScript object literal is a fresh heap
object); it is not part of the source's data but of the heap model. -/
inductive Branch : Type where
  | mk (id alloc depth : ℕ) (length angle seed swayPhase baseWidth : ℝ)
      (color : Color) (pruned : Bool) (regrowAt pruneLength : ℝ)
      (fruits : Option (List Fruit)) (children : List Branch)

/-- Field accessor for `id`. -/
def Branch.id : Branch → ℕ
  | .mk i _ _ _ _ _ _ _ _ _ _ _ _ _ => i

/-- Field accessor for `alloc`. -/
def Branch.alloc : Branch → ℕ
  | .mk _ al _ _ _ _ _ _ _ _ _ _ _ _ => al

/-- Field accessor for `depth`. -/
def Branch.depth : Branch → ℕ
  | .mk _ _ d _ _ _ _ _ _ _ _ _ _ _ => d

/-- Field accessor for `length`. -/
def Branch.length : Branch → ℝ
  | .mk _ _ _ L _ _ _ _ _ _ _ _ _ _ => L

/-- Field accessor for `angle`. -/
def Branch.angle : Branch → ℝ
  | .mk _ _ _ _ a _ _ _ _ _ _ _ _ _ => a

/-- Field accessor for `seed`. -/
def Branch.seed : Branch → ℝ
  | .mk _ _ _ _ _ s _ _ _ _ _ _ _ _ => s

/-- Field accessor for `swayPhase`. -/
def Branch.swayPhase : Branch → ℝ
  | .mk _ _ _ _ _ _ sp _ _ _ _ _ _ _ => sp

/-- Field accessor for `baseWidth`. -/
def Branch.baseWidth : Branch → ℝ
  | .mk _ _ _ _ _ _ _ bw _ _ _ _ _ _ => bw

/-- Field accessor for `color`. -/
def Branch.color : Branch → Color
  | .mk _ _ _ _ _ _ _ _ c _ _ _ _ _ => c

/-- Field accessor for `pruned`. -/
def Branch.pruned : Branch → Bool
  | .mk _ _ _ _ _ _ _ _ _ p _ _ _ _ => p

/-- Field accessor for `regrowAt`. -/
def Branch.regrowAt : Branch → ℝ
  | .mk _ _ _ _ _ _ _ _ _ _ rg _ _ _ => rg

/-- Field accessor for `pruneLength`. -/
def Branch.pruneLength : Branch → ℝ
  | .mk _ _ _ _ _ _ _ _ _ _ _ pl _ _ => pl

/-- Field accessor for `fruits`. -/
def Branch.fruits : Branch → Option (List Fruit)
  | .mk _ _ _ _ _ _ _ _ _ _ _ _ f _ => f

/-- Field accessor for `children`. -/
def Branch.children : Branch → List Branch
  | .mk _ _ _ _ _ _ _ _ _ _ _ _ _ ch => ch

/-- Node colour of `createBranch`, a function of depth and seed only. -/
def colorOf (depth : ℕ) (seed : ℝ) : Color :=
  ⟨82 + (depth : ℝ) * 5 + seededRandom (seed + 6) * 25,
   58 + (depth : ℝ) * 3 + seededRandom (seed + 7) * 18,
   42 + (depth : ℝ) * 2 + seededRandom (seed + 8) * 18⟩

/-- Stroke width of `createBranch`: `Math.max(1, (maxDepth - depth + 1)*1.15)`. -/
def baseWidthOf (depth : ℕ) : ℝ :=
  max 1 (((CONFIG.maxDepth : ℝ) - (depth : ℝ) + 1) * 1.15)

/-- Stub length of `createBranch`: `length * (0.2 + seededRandom(seed+12)*0.2)`. -/
def pruneLengthOf (length seed : ℝ) : ℝ :=
  length * (0.2 + seededRandom (seed + 12) * 0.2)

/-- Local `spread` of `createBranch`: `0.25 + seededRandom(seed+1) * 0.35`. -/
def spreadOf (seed : ℝ) : ℝ := 0.25 + seededRandom (seed + 1) * 0.35

/-- Local `lenFactor` of `createBranch`:
`0.68 + seededRandom(seed+2) * 0.1 - depth * 0.01`. -/
def lenFactorOf (depth : ℕ) (seed : ℝ) : ℝ :=
  0.68 + seededRandom (seed + 2) * 0.1 - (depth : ℝ) * 0.01

/-- Local `lean` of `createBranch`: `(seededRandom(seed+3) - 0.5) * 0.18`. -/
def leanOf (seed : ℝ) : ℝ := (seededRandom (seed + 3) - 0.5) * 0.18

/-- Local `variance` of `createBranch`:
`(seededRandom(seed+5) - 0.5) * spread`. -/
def varianceOf (seed : ℝ) : ℝ := (seededRandom (seed + 5) - 0.5) * spreadOf seed

/-- Recursive branch generator `createBranch(depth, length, angle, seed)` of
the source.  `sway` is the oracle stream standing for the `Math.random()`
calls that set `swayPhase` (indexed by allocation tag), `idc` is the global
`branchIdCounter`, and `ac` the allocation counter of the heap model.
Returns the node together with the updated two counters. -/
def createBranch (sway : ℕ → ℝ) (depth : ℕ) (length angle seed : ℝ)
    (idc ac : ℕ) : Branch × ℕ × ℕ :=
  if h : CONFIG.maxDepth ≤ depth then
    (Branch.mk idc ac depth length angle seed (sway ac * (2 * Real.pi))
      (baseWidthOf depth) (colorOf depth seed) false 0
      (pruneLengthOf length seed) none [], idc + 1, ac + 1)
  else
    let c1 := createBranch sway (depth + 1) (length * lenFactorOf depth seed)
      (angle + spreadOf seed + leanOf seed) (seed * 1.71 + 1) (idc + 1) (ac + 1)
    let c2 := createBranch sway (depth + 1) (length * lenFactorOf depth seed)
      (angle - spreadOf seed + leanOf seed) (seed * 1.71 + 2) c1.2.1 c1.2.2
    if 1 < depth ∧ 0.58 < seededRandom (seed + 4) then
      let c3 := createBranch sway (depth + 1) (length * (lenFactorOf depth seed * 0.9))
        (angle + varianceOf seed) (seed * 1.71 + 3) c2.2.1 c2.2.2
      (Branch.mk idc ac depth length angle seed (sway ac * (2 * Real.pi))
        (baseWidthOf depth) (colorOf depth seed) false 0
        (pruneLengthOf length seed) none [c1.1, c2.1, c3.1], c3.2.1, c3.2.2)
    else
      (Branch.mk idc ac depth length angle seed (sway ac * (2 * Real.pi))
        (baseWidthOf depth) (colorOf depth seed) false 0
        (pruneLengthOf length seed) none [c1.1, c2.1], c2.2.1, c2.2.2)
termination_by CONFIG.maxDepth - depth
decreasing_by
  all_goals (unfold CONFIG.maxDepth at *; omega)

mutual

/-- List of all nodes of a branch tree (the node itself first, then the
nodes of the children in order). -/
def allNodes : Branch → List Branch
  | .mk i al d L a s sp bw c p rg pl f ch =>
    Branch.mk i al d L a s sp bw c p rg pl f ch :: allNodesL ch

/-- List version of `allNodes`. -/
def allNodesL : List Branch → List Branch
  | [] => []
  | b :: bs => allNodes b ++ allNodesL bs

end

/-- Structural skeleton of a tree: exactly the data the determinism claim
compares (depth, length, angle, colour, and the ordered children). -/
inductive Skel : Type where
  | node (depth : ℕ) (length angle : ℝ) (color : Color) (children : List Skel)

mutual

/-- Skeleton projection of a branch node. -/
def skeleton : Branch → Skel
  | .mk _ _ d L a _ _ _ c _ _ _ _ ch => .node d L a c (skeletonL ch)

/-- List version of `skeleton`. -/
def skeletonL : List Branch → List Skel
  | [] => []
  | b :: bs => skeleton b :: skeletonL bs

end

mutual

/-- Number of nodes of a branch tree. -/
def nodeCount : Branch → ℕ
  | .mk _ _ _ _ _ _ _ _ _ _ _ _ _ ch => 1 + nodeCountL ch

/-- List version of `nodeCount`. -/
def nodeCountL : List Branch → ℕ
  | [] => 0
  | b :: bs => nodeCount b + nodeCountL bs

end

mutual

/-- Effect of `chosen.branch.pruned = true; chosen.branch.regrowAt = rg` on the
tree: the node whose `id` is `bid` gets `pruned := true` and `regrowAt := rg`,
every other node is untouched. -/
def markPruned (bid : ℕ) (rg : ℝ) : Branch → Branch
  | .mk i al d L a s sp bw c p prg pl f ch =>
    if i = bid then .mk i al d L a s sp bw c true rg pl f (markPrunedL bid rg ch)
    else .mk i al d L a s sp bw c p prg pl f (markPrunedL bid rg ch)

/-- List version of `markPruned`. -/
def markPrunedL (bid : ℕ) (rg : ℝ) : List Branch → List Branch
  | [] => []
  | b :: bs => markPruned bid rg b :: markPrunedL bid rg bs

end

mutual

/-- Projection of a tree to the per-node pruning state `(id, pruned, regrowAt)`,
in `allNodes` order. -/
def prunedMap : Branch → List (ℕ × Bool × ℝ)
  | .mk i _ _ _ _ _ _ _ _ p rg _ _ ch => (i, p, rg) :: prunedMapL ch

/-- List version of `prunedMap`. -/
def prunedMapL : List Branch → List (ℕ × Bool × ℝ)
  | [] => []
  | b :: bs => prunedMap b ++ prunedMapL bs

end

/-- Clamp of the raw frame delta in the loop:
`deltaMs = Math.min(Math.max(deltaMs, 8), 120)`. -/
def clampDelta (d : ℝ) : ℝ := min (max d 8) 120

/-- Per-frame interpolation factor of the loop:
`clamp(deltaMs * CONFIG.baseGrowthSpeed, 0, 0.04)`. -/
def lerpFactor (deltaMs : ℝ) : ℝ := clamp (deltaMs * CONFIG.baseGrowthSpeed) 0 0.04

/-- One growth update of the loop (with the delta clamp applied first):
`growth += (targetGrowth - growth) * lerpFactor; growth = clamp(growth, 0, 1.08)`. -/
def growthStep (target rawDelta g : ℝ) : ℝ :=
  clamp (g + (target - g) * lerpFactor (clampDelta rawDelta)) 0 1.08

/-- Growth after `n` frames, starting from `g0`, with constant target and raw
frame deltas given by the stream `e`. -/
def growthSeq (target : ℝ) (e : ℕ → ℝ) (g0 : ℝ) : ℕ → ℝ
  | 0 => g0
  | n + 1 => growthStep target (e n) (growthSeq target e g0 n)

/-- Life stage enumeration of the source. -/
inductive Stage : Type where
  | seed
  | sprout
  | young
  | mature
  | fruit
  | decline
  | seedFall
  | rebirth
deriving DecidableEq

/-- Sapling entity of the source. -/
structure Sapling where
  x : ℝ
  y : ℝ
  growth : ℝ
  phase : ℝ
  sway : ℝ

/-- Oracle bundling every `Math.random()` consulted during one
`updateLifeStage` call (fruit decline roll, sapling batch randomness and the
randomness of a potential tree rebuild). -/
structure Oracle where
  fruitRand : ℝ
  countRand : ℝ
  sapX : ℕ → ℝ
  sapY : ℕ → ℝ
  sapPhase : ℕ → ℝ
  sapSway : ℕ → ℝ
  rootRand : ℝ
  sway : ℕ → ℝ

/-- Mutable simulation state touched by the life-stage machine. -/
structure SimState where
  lifeStage : Stage
  stageTimer : ℝ
  regenCountdown : ℝ
  growth : ℝ
  targetGrowth : ℝ
  saplings : List Sapling
  fruitsRipened : ℤ
  tree : Branch
  branchIdCounter : ℕ
  allocCtr : ℕ
  width : ℝ
  height : ℝ

/-- Transition helper `setStage(nextStage)` of the source: a no-op when the
stage is unchanged, otherwise switches stage and resets `stageTimer` to 0. -/
def setStage (s : SimState) (next : Stage) : SimState :=
  if s.lifeStage = next then s
  else { s with lifeStage := next, stageTimer := 0 }

/-- Sapling batch creation `spawnSaplings()` of the source. -/
def spawnSaplings (o : Oracle) (s : SimState) : SimState :=
  let fruitBonus : ℤ := min 3 (Int.fdiv s.fruitsRipened 6)
  let randomCount : ℝ :=
    (CONFIG.saplingMin : ℝ) + o.countRand * ((CONFIG.saplingMax : ℝ) - (CONFIG.saplingMin : ℝ) + 1)
  let count : ℤ := max (CONFIG.saplingMin : ℤ) ⌊randomCount + (fruitBonus : ℝ)⌋
  { s with
    fruitsRipened := max 0 (s.fruitsRipened - fruitBonus * 3),
    saplings := (List.range count.toNat).map (fun i =>
      ⟨s.width / 2 + (o.sapX i - 0.5) * s.width * 0.18,
       s.height - 45 + o.sapY i * 10,
       0.02,
       o.sapPhase i * (2 * Real.pi),
       0.4 + o.sapSway i * 0.6⟩) }

/-- Tree builder `buildTree()` of the source: resets `branchIdCounter` to 0 and
generates a fresh root via `createBranch(0, baseLength, 0, Math.random()*1000)`.
Returns the root and the final id and allocation counters. -/
def buildTree (o : Oracle) (s : SimState) : Branch × ℕ × ℕ :=
  let baseLength := min s.width s.height * 0.25
  createBranch o.sway 0 baseLength 0 (o.rootRand * 1000) 0 s.allocCtr

/-- Life-stage machine `updateLifeStage(delta)` of the source, including the
trailing `regenCountdown` reset and the decline pull on `targetGrowth`. -/
def updateLifeStage (o : Oracle) (delta : ℝ) (s : SimState) : SimState :=
  let s1 :=
    match s.lifeStage with
    | .seed => if 0.18 < s.growth then setStage s .sprout else s
    | .sprout => if 0.42 < s.growth then setStage s .young else s
    | .young => if 0.66 < s.growth then setStage s .mature else s
    | .mature =>
        if 0.82 < s.growth ∧ 6000 < s.stageTimer then setStage s .fruit else s
    | .fruit =>
        if 32000 < s.stageTimer ∨ o.fruitRand < delta * 0.0000006 then
          setStage s .decline
        else s
    | .decline => if s.growth < 0.3 then setStage s .seedFall else s
    | .seedFall =>
        let sA := { s with regenCountdown := s.regenCountdown + delta }
        let sB := if sA.saplings = [] then spawnSaplings o sA else sA
        if 18000 < sB.regenCountdown then setStage sB .rebirth else sB
    | .rebirth =>
        let sA := if s.saplings = [] then spawnSaplings o s else s
        if ∀ sap ∈ sA.saplings, 0.98 < sap.growth then
          let built := buildTree o sA
          setStage { sA with
            tree := built.1,
            branchIdCounter := built.2.1,
            allocCtr := built.2.2,
            growth := 0.05,
            targetGrowth := 0.15,
            saplings := [] } .sprout
        else sA
  let s2 :=
    if s1.lifeStage ≠ .seedFall ∧ s1.lifeStage ≠ .rebirth then
      { s1 with regenCountdown := 0 }
    else s1
  if s2.lifeStage = .decline then
    { s2 with targetGrowth := max 0.24 (s2.targetGrowth - delta * 0.00012) }
  else s2


/-- Rendered branch segment as consumed by the pruning engine (the source
stores the owning branch object; the model stores its id plus the fields the
cut reads: `depth` and `pruned`). -/
structure Seg where
  bid : ℕ
  depth : ℕ
  pruned : Bool
  x1 : ℝ
  y1 : ℝ
  x2 : ℝ
  y2 : ℝ

/-- Point-to-segment projection `closestPoint(x1, y1, x2, y2, px, py)` of the
source, including the `|| 1` guard on a degenerate segment. -/
def closestPoint (x1 y1 x2 y2 px py : ℝ) : ℝ × ℝ :=
  let dx := x2 - x1
  let dy := y2 - y1
  let lenSq0 := dx * dx + dy * dy
  let lenSq := if lenSq0 = 0 then 1 else lenSq0
  let t := clamp (((px - x1) * dx + (py - y1) * dy) / lenSq) 0 1
  (x1 + dx * t, y1 + dy * t)

/-- Distance from the pointer to a segment, as computed in `performSawCut`
(`Math.hypot` of the closest-point offset). -/
def segDist (s : Seg) (px py : ℝ) : ℝ :=
  let p := closestPoint s.x1 s.y1 s.x2 s.y2 px py
  Real.sqrt ((p.1 - px) ^ 2 + (p.2 - py) ^ 2)

/-- Eligibility filter of the scan in `performSawCut`: segments whose branch is
the trunk (`depth === 0`) or already pruned are skipped. -/
def eligibleSeg (s : Seg) : Prop := s.depth ≠ 0 ∧ s.pruned = false

/-- The `branchSegments.forEach` scan of `performSawCut`: keeps the running
best candidate and best distance (initially `null` and `CONFIG.sawRadius`),
improving only on a strictly smaller distance. -/
def sawScan (px py : ℝ) : List Seg → Option Seg × ℝ → Option Seg × ℝ
  | [], acc => acc
  | s :: rest, acc =>
    if s.depth = 0 ∨ s.pruned = true then sawScan px py rest acc
    else
      let d := segDist s px py
      if d < acc.2 then sawScan px py rest (some s, d)
      else sawScan px py rest acc

/-- Result of a saw-cut attempt: the chosen segment with its regrow deadline
(if any), the updated `lastCut`, and the updated tree. -/
structure CutResult where
  cut : Option (Seg × ℝ)
  lastCut : ℝ
  tree : Branch

/-- Cut attempt `performSawCut()` of the source.  `rand` stands for the
`Math.random()` consumed on a successful cut. -/
def performSawCut (segs : List Seg) (px py now lastCut rand : ℝ)
    (t : Branch) : CutResult :=
  if segs = [] then ⟨none, lastCut, t⟩
  else if now - lastCut < CONFIG.sawCooldown then ⟨none, lastCut, t⟩
  else
    match sawScan px py segs (none, CONFIG.sawRadius) with
    | (some s, _) =>
        let rg := now + 18000 + rand * 14000
        ⟨some (s, rg), now, markPruned s.bid rg t⟩
    | (none, _) => ⟨none, lastCut, t⟩

/-- Per-fruit update of `drawFruit`: advance ripeness (clamped to `[0, 1.2]`)
and count the fruit once when ripeness passes 0.98. -/
def fruitStep (deltaMs hydration : ℝ) (c : ℤ) (f : Fruit) : Fruit × ℤ :=
  let rip := clamp (f.ripeness + deltaMs * 0.00005 + hydration * 0.0001) 0 1.2
  if 0.98 < rip ∧ f.counted = false then (⟨f.offset, f.angleOffset, rip, true⟩, c + 1)
  else (⟨f.offset, f.angleOffset, rip, f.counted⟩, c)

/-- The `branch.fruits.forEach` loop of `drawFruit`, threading the global
`fruitsRipened` counter. -/
def fruitsStep (deltaMs hydration : ℝ) : List Fruit → ℤ → List Fruit × ℤ
  | [], c => ([], c)
  | f :: fs, c =>
    let r := fruitStep deltaMs hydration c f
    let rest := fruitsStep deltaMs hydration fs r.2
    (r.1 :: rest.1, rest.2)

/-- Lazy fruit creation in `drawFruit` (first fruiting render of a leaf).
`rnd` is the oracle stream for the `Math.random()` in the initial ripeness,
consumed from index `ri`. -/
def makeFruits (branchSeed : ℝ) (rnd : ℕ → ℝ) (ri : ℕ) : List Fruit × ℕ :=
  let count : ℕ := if 0.65 < seededRandom (branchSeed + 40) then 2 else 1
  ((List.range count).map (fun (idx : ℕ) =>
    ⟨(if idx = 0 then -1 else 1) * (0.5 + seededRandom (branchSeed + (idx : ℝ)) * 0.3),
     (if idx = 0 then -0.4 else 0.4) + (seededRandom (branchSeed + (idx : ℝ) + 1) - 0.5) * 0.3,
     0.1 + rnd (ri + idx) * 0.2,
     false⟩),
   ri + count)

/-- Fruit pass `drawFruit` of the source for one leaf branch: inactive outside
the fruit/decline/seedFall stages, lazily creates the fruit list, then updates
every fruit and the global `fruitsRipened` counter. -/
def drawFruit (stage : Stage) (branchSeed deltaMs hydration : ℝ) (rnd : ℕ → ℝ)
    (fruits : Option (List Fruit)) (c : ℤ) (ri : ℕ) :
    Option (List Fruit) × ℤ × ℕ :=
  if stage ≠ Stage.fruit ∧ stage ≠ Stage.decline ∧ stage ≠ Stage.seedFall then
    (fruits, c, ri)
  else
    let made :=
      match fruits with
      | some fs => (fs, ri)
      | none => makeFruits branchSeed rnd ri
    let stepped := fruitsStep deltaMs hydration made.1 c
    (some stepped.1, stepped.2, made.2)

/-- Global scalars read by the render walk. -/
structure Glob where
  growth : ℝ
  wind : ℝ
  lifeStage : Stage
  deltaMs : ℝ
  hydration : ℝ
  fruitRnd : ℕ → ℝ

mutual

/-- Render walk `drawBranch(branch, time, parentAngle, startX, startY)` of the
source, restricted to its state effects: it returns the updated branch (regrow
check, lazy fruit state), the list of segments pushed to `branchSegments`, and
the updated `fruitsRipened` counter and fruit-randomness index. -/
def drawBranch (g : Glob) (time parentAngle startX startY : ℝ) :
    Branch → ℤ → ℕ → Branch × List Seg × ℤ × ℕ
  | .mk i al d L a s sp bw col p prg pl f ch, c, ri =>
    let depthDelay := (d : ℝ) * CONFIG.growthDelayPerLevel
    let available := 1 - depthDelay
    let progress := clamp ((g.growth - depthDelay) / available) 0 1
    if progress ≤ 0 then (.mk i al d L a s sp bw col p prg pl f ch, [], c, ri)
    else
      let swayNow := Real.sin (time * 0.0009 + sp + s) *
        (0.03 + ((CONFIG.maxDepth : ℝ) - (d : ℝ)) * 0.005) * (0.35 + g.growth * 0.65)
      let windGust := g.wind * (0.25 + (d : ℝ) * 0.04)
      let angle := parentAngle + a + swayNow + windGust
      let length := L * easeOutCubic progress
      let endX := startX + Real.sin angle * length
      let endY := startY - Real.cos angle * length
      if p = true ∧ ¬ prg < time then
        (.mk i al d L a s sp bw col p prg pl f ch, [], c, ri)
      else
        let seg : Seg := ⟨i, d, false, startX, startY, endX, endY⟩
        if ch = [] ∧ 0.35 < progress then
          if CONFIG.fruitDepthStart ≤ d then
            let df := drawFruit g.lifeStage s g.deltaMs g.hydration g.fruitRnd f c ri
            (.mk i al d L a s sp bw col false prg pl df.1 ch, [seg], df.2.1, df.2.2)
          else
            (.mk i al d L a s sp bw col false prg pl f ch, [seg], c, ri)
        else if 0.55 < progress then
          let rc := drawBranchL g time angle endX endY ch c ri
          (.mk i al d L a s sp bw col false prg pl f rc.1,
           seg :: rc.2.1, rc.2.2.1, rc.2.2.2)
        else
          (.mk i al d L a s sp bw col false prg pl f ch, [seg], c, ri)

/-- The `branch.children.forEach` recursion of `drawBranch`. -/
def drawBranchL (g : Glob) (time pAngle sX sY : ℝ) :
    List Branch → ℤ → ℕ → List Branch × List Seg × ℤ × ℕ
  | [], c, ri => ([], [], c, ri)
  | b :: bs, c, ri =>
    let r1 := drawBranch g time pAngle sX sY b c ri
    let r2 := drawBranchL g time pAngle sX sY bs r1.2.2.1 r1.2.2.2
    (r1.1 :: r2.1, r1.2.1 ++ r2.2.1, r2.2.2)

end

/-- The seed hash always lands in `[0, 1]`. -/
theorem seededRandom_mem (s : ℝ) : 0 ≤ seededRandom s ∧ seededRandom s ≤ 1 := by
  unfold seededRandom
  constructor
  · nlinarith [Real.neg_one_le_sin (s * 9341.13)]
  · nlinarith [Real.sin_le_one (s * 9341.13)]

/-- Clamping with ordered bounds stays within the bounds. -/
theorem clamp_mem (v lo hi : ℝ) (h : lo ≤ hi) :
    lo ≤ clamp v lo hi ∧ clamp v lo hi ≤ hi := by
  unfold clamp
  constructor
  · exact le_min h (le_max_left lo v)
  · exact min_le_left hi _

/-- Clamping a value already inside the bounds is the identity. -/
theorem clamp_id (v lo hi : ℝ) (h1 : lo ≤ v) (h2 : v ≤ hi) :
    clamp v lo hi = v := by
  unfold clamp
  rw [max_eq_right h1, min_eq_right h2]

/-- Unfolding of `createBranch` at maximum depth: a childless leaf node. -/
theorem createBranch_leaf (sway : ℕ → ℝ) (depth : ℕ) (L a s : ℝ) (i ac : ℕ)
    (h : CONFIG.maxDepth ≤ depth) :
    createBranch sway depth L a s i ac =
      (Branch.mk i ac depth L a s (sway ac * (2 * Real.pi)) (baseWidthOf depth)
        (colorOf depth s) false 0 (pruneLengthOf L s) none [], i + 1, ac + 1) := by
  rw [createBranch]
  simp [h]

/-- Unfolding of `createBranch` below maximum depth when the third-child roll
fails: exactly the two mirrored children. -/
theorem createBranch_two (sway : ℕ → ℝ) (depth : ℕ) (L a s : ℝ) (i ac : ℕ)
    (h : ¬ CONFIG.maxDepth ≤ depth)
    (h3 : ¬ (1 < depth ∧ 0.58 < seededRandom (s + 4))) :
    createBranch sway depth L a s i ac =
      (let c1 := createBranch sway (depth + 1) (L * lenFactorOf depth s)
        (a + spreadOf s + leanOf s) (s * 1.71 + 1) (i + 1) (ac + 1)
       let c2 := createBranch sway (depth + 1) (L * lenFactorOf depth s)
        (a - spreadOf s + leanOf s) (s * 1.71 + 2) c1.2.1 c1.2.2
       (Branch.mk i ac depth L a s (sway ac * (2 * Real.pi)) (baseWidthOf depth)
        (colorOf depth s) false 0 (pruneLengthOf L s) none [c1.1, c2.1],
        c2.2.1, c2.2.2)) := by
  rw [createBranch]
  simp [h, h3]

/-- Unfolding of `createBranch` below maximum depth when the third-child roll
succeeds: the two mirrored children plus the variance child. -/
theorem createBranch_three (sway : ℕ → ℝ) (depth : ℕ) (L a s : ℝ) (i ac : ℕ)
    (h : ¬ CONFIG.maxDepth ≤ depth)
    (h3 : 1 < depth ∧ 0.58 < seededRandom (s + 4)) :
    createBranch sway depth L a s i ac =
      (let c1 := createBranch sway (depth + 1) (L * lenFactorOf depth s)
        (a + spreadOf s + leanOf s) (s * 1.71 + 1) (i + 1) (ac + 1)
       let c2 := createBranch sway (depth + 1) (L * lenFactorOf depth s)
        (a - spreadOf s + leanOf s) (s * 1.71 + 2) c1.2.1 c1.2.2
       let c3 := createBranch sway (depth + 1) (L * (lenFactorOf depth s * 0.9))
        (a + varianceOf s) (s * 1.71 + 3) c2.2.1 c2.2.2
       (Branch.mk i ac depth L a s (sway ac * (2 * Real.pi)) (baseWidthOf depth)
        (colorOf depth s) false 0 (pruneLengthOf L s) none [c1.1, c2.1, c3.1],
        c3.2.1, c3.2.2)) := by
  rw [createBranch]
  simp [h, h3]

/-- Skeleton of a generated subtree is independent of the `swayPhase`
randomness and of both counters (auxiliary induction on remaining depth). -/
theorem createBranch_skel_aux (n : ℕ) :
    ∀ depth, CONFIG.maxDepth - depth ≤ n →
    ∀ (sw1 sw2 : ℕ → ℝ) (L a s : ℝ) (i1 a1 i2 a2 : ℕ),
    skeleton (createBranch sw1 depth L a s i1 a1).1 =
      skeleton (createBranch sw2 depth L a s i2 a2).1 := by
  induction n with
  | zero =>
    intro depth hd sw1 sw2 L a s i1 a1 i2 a2
    have h : CONFIG.maxDepth ≤ depth := by omega
    rw [createBranch_leaf _ _ _ _ _ _ _ h, createBranch_leaf _ _ _ _ _ _ _ h]
    simp [skeleton, skeletonL]
  | succ n ih =>
    intro depth hd sw1 sw2 L a s i1 a1 i2 a2
    by_cases h : CONFIG.maxDepth ≤ depth
    · rw [createBranch_leaf _ _ _ _ _ _ _ h, createBranch_leaf _ _ _ _ _ _ _ h]
      simp [skeleton, skeletonL]
    · have hd' : CONFIG.maxDepth - (depth + 1) ≤ n := by
        unfold CONFIG.maxDepth at *; omega
      by_cases h3 : 1 < depth ∧ 0.58 < seededRandom (s + 4)
      · rw [createBranch_three sw1 _ _ _ _ _ _ h h3,
          createBranch_three sw2 _ _ _ _ _ _ h h3]
        simp only [skeleton, skeletonL, Skel.node.injEq, List.cons.injEq, and_true,
          true_and]
        exact ⟨ih _ hd' _ _ _ _ _ _ _ _ _, ih _ hd' _ _ _ _ _ _ _ _ _,
          ih _ hd' _ _ _ _ _ _ _ _ _⟩
      · rw [createBranch_two sw1 _ _ _ _ _ _ h h3,
          createBranch_two sw2 _ _ _ _ _ _ h h3]
        simp only [skeleton, skeletonL, Skel.node.injEq, List.cons.injEq, and_true,
          true_and]
        exact ⟨ih _ hd' _ _ _ _ _ _ _ _ _, ih _ hd' _ _ _ _ _ _ _ _ _⟩

/-- Node count of a generated subtree is independent of the `swayPhase`
randomness and of both counters (auxiliary induction on remaining depth). -/
theorem createBranch_count_aux (n : ℕ) :
    ∀ depth, CONFIG.maxDepth - depth ≤ n →
    ∀ (sw1 sw2 : ℕ → ℝ) (L a s : ℝ) (i1 a1 i2 a2 : ℕ),
    nodeCount (createBranch sw1 depth L a s i1 a1).1 =
      nodeCount (createBranch sw2 depth L a s i2 a2).1 := by
  induction n with
  | zero =>
    intro depth hd sw1 sw2 L a s i1 a1 i2 a2
    have h : CONFIG.maxDepth ≤ depth := by omega
    rw [createBranch_leaf _ _ _ _ _ _ _ h, createBranch_leaf _ _ _ _ _ _ _ h]
    simp [nodeCount, nodeCountL]
  | succ n ih =>
    intro depth hd sw1 sw2 L a s i1 a1 i2 a2
    by_cases h : CONFIG.maxDepth ≤ depth
    · rw [createBranch_leaf _ _ _ _ _ _ _ h, createBranch_leaf _ _ _ _ _ _ _ h]
      simp [nodeCount, nodeCountL]
    · have hd' : CONFIG.maxDepth - (depth + 1) ≤ n := by
        unfold CONFIG.maxDepth at *; omega
      by_cases h3 : 1 < depth ∧ 0.58 < seededRandom (s + 4)
      · rw [createBranch_three sw1 _ _ _ _ _ _ h h3,
          createBranch_three sw2 _ _ _ _ _ _ h h3]
        simp only [nodeCount, nodeCountL]
        rw [ih _ hd' sw1 sw2 _ _ _ _ _ _ _, ih _ hd' sw1 sw2 _ _ _ _ _ _ _,
          ih _ hd' sw1 sw2 _ _ _ _ _ _ _]
      · rw [createBranch_two sw1 _ _ _ _ _ _ h h3,
          createBranch_two sw2 _ _ _ _ _ _ h h3]
        simp only [nodeCount, nodeCountL]
        rw [ih _ hd' sw1 sw2 _ _ _ _ _ _ _, ih _ hd' sw1 sw2 _ _ _ _ _ _ _]

/-- C1: for every numeric root seed and fixed base geometry, two runs of the
branch-tree generator at depth 0 with identical arguments — but arbitrary and
possibly different `Math.random()` draws (`sw1`, `sw2`) and counter states —
produce structurally identical trees: the same node count and, node for node,
the same depth, length, angle, colour and the same number and order of
children (equality of the `skeleton` projections). -/
theorem C1_generator_deterministic (sw1 sw2 : ℕ → ℝ) (L a s : ℝ)
    (i1 a1 i2 a2 : ℕ) :
    skeleton (createBranch sw1 0 L a s i1 a1).1 =
      skeleton (createBranch sw2 0 L a s i2 a2).1 ∧
    nodeCount (createBranch sw1 0 L a s i1 a1).1 =
      nodeCount (createBranch sw2 0 L a s i2 a2).1 :=
  ⟨createBranch_skel_aux CONFIG.maxDepth 0 (by omega) sw1 sw2 L a s i1 a1 i2 a2,
   createBranch_count_aux CONFIG.maxDepth 0 (by omega) sw1 sw2 L a s i1 a1 i2 a2⟩

/-- Every branch tree contains itself as its first node. -/
theorem self_mem_allNodes (b : Branch) : b ∈ allNodes b := by
  cases b
  simp [allNodes]

/-- Shape invariant of generated subtrees: the recorded depth never exceeds
`maxDepth`, nodes at `maxDepth` are childless, and nodes below it have exactly
2 or 3 children (auxiliary induction on remaining depth). -/
theorem createBranch_shape_aux (n : ℕ) :
    ∀ depth, CONFIG.maxDepth - depth ≤ n → depth ≤ CONFIG.maxDepth →
    ∀ (sw : ℕ → ℝ) (L a s : ℝ) (i ac : ℕ),
    ∀ b ∈ allNodes (createBranch sw depth L a s i ac).1,
    b.depth ≤ CONFIG.maxDepth ∧
    (CONFIG.maxDepth ≤ b.depth → b.children = []) ∧
    (b.depth < CONFIG.maxDepth → b.children.length = 2 ∨ b.children.length = 3) := by
  induction n with
  | zero =>
    intro depth hd hle sw L a s i ac b hb
    have h : CONFIG.maxDepth ≤ depth := by omega
    rw [createBranch_leaf _ _ _ _ _ _ _ h] at hb
    simp [allNodes, allNodesL] at hb
    subst hb
    simp [Branch.depth, Branch.children]
    omega
  | succ n ih =>
    intro depth hd hle sw L a s i ac b hb
    by_cases h : CONFIG.maxDepth ≤ depth
    · rw [createBranch_leaf _ _ _ _ _ _ _ h] at hb
      simp [allNodes, allNodesL] at hb
      subst hb
      simp [Branch.depth, Branch.children]
      omega
    · have hd' : CONFIG.maxDepth - (depth + 1) ≤ n := by
        unfold CONFIG.maxDepth at *; omega
      have hle' : depth + 1 ≤ CONFIG.maxDepth := by omega
      by_cases h3 : 1 < depth ∧ 0.58 < seededRandom (s + 4)
      · rw [createBranch_three _ _ _ _ _ _ _ h h3] at hb
        simp only [allNodes, allNodesL, List.append_nil, List.mem_cons,
          List.mem_append] at hb
        rcases hb with hb | hb | hb | hb
        · subst hb
          simp [Branch.depth, Branch.children]
          omega
        · exact ih _ hd' hle' _ _ _ _ _ _ b hb
        · exact ih _ hd' hle' _ _ _ _ _ _ b hb
        · exact ih _ hd' hle' _ _ _ _ _ _ b hb
      · rw [createBranch_two _ _ _ _ _ _ _ h h3] at hb
        simp only [allNodes, allNodesL, List.append_nil, List.mem_cons,
          List.mem_append] at hb
        rcases hb with hb | hb | hb
        · subst hb
          simp [Branch.depth, Branch.children]
          omega
        · exact ih _ hd' hle' _ _ _ _ _ _ b hb
        · exact ih _ hd' hle' _ _ _ _ _ _ b hb

/-- Some node of a generated subtree reaches depth exactly `maxDepth`
(auxiliary induction on remaining depth). -/
theorem createBranch_reaches_aux (n : ℕ) :
    ∀ depth, CONFIG.maxDepth - depth ≤ n → depth ≤ CONFIG.maxDepth →
    ∀ (sw : ℕ → ℝ) (L a s : ℝ) (i ac : ℕ),
    ∃ b ∈ allNodes (createBranch sw depth L a s i ac).1,
      b.depth = CONFIG.maxDepth := by
  induction n with
  | zero =>
    intro depth hd hle sw L a s i ac
    have h : CONFIG.maxDepth ≤ depth := by omega
    rw [createBranch_leaf _ _ _ _ _ _ _ h]
    refine ⟨_, List.mem_cons_self _ _, ?_⟩
    simp [allNodes, Branch.depth]
    omega
  | succ n ih =>
    intro depth hd hle sw L a s i ac
    by_cases h : CONFIG.maxDepth ≤ depth
    · rw [createBranch_leaf _ _ _ _ _ _ _ h]
      refine ⟨_, List.mem_cons_self _ _, ?_⟩
      simp [allNodes, Branch.depth]
      omega
    · have hd' : CONFIG.maxDepth - (depth + 1) ≤ n := by
        unfold CONFIG.maxDepth at *; omega
      have hle' : depth + 1 ≤ CONFIG.maxDepth := by omega
      obtain ⟨b, hb, hdep⟩ := ih (depth + 1) hd' hle' sw
        (L * lenFactorOf depth s) (a + spreadOf s + leanOf s) (s * 1.71 + 1)
        (i + 1) (ac + 1)
      by_cases h3 : 1 < depth ∧ 0.58 < seededRandom (s + 4)
      · rw [createBranch_three _ _ _ _ _ _ _ h h3]
        refine ⟨b, ?_, hdep⟩
        simp only [allNodes, allNodesL, List.append_nil, List.mem_cons,
          List.mem_append]
        exact Or.inr (Or.inl hb)
      · rw [createBranch_two _ _ _ _ _ _ _ h h3]
        refine ⟨b, ?_, hdep⟩
        simp only [allNodes, allNodesL, List.append_nil, List.mem_cons,
          List.mem_append]
        exact Or.inr (Or.inl hb)

/-- C2: every tree generated at depth 0 is a finite rooted tree in which every
node's depth is at most `maxDepth`, some node reaches depth exactly `maxDepth`,
nodes at `maxDepth` are childless, and nodes strictly below `maxDepth` have
exactly 2 or 3 children — so `children.length ∈ {0, 2, 3}` throughout. -/
theorem C2_tree_shape (sw : ℕ → ℝ) (L a s : ℝ) (i ac : ℕ) :
    (∀ b ∈ allNodes (createBranch sw 0 L a s i ac).1,
      b.depth ≤ CONFIG.maxDepth ∧
      (b.depth = CONFIG.maxDepth → b.children = []) ∧
      (b.depth < CONFIG.maxDepth →
        b.children.length = 2 ∨ b.children.length = 3)) ∧
    (∃ b ∈ allNodes (createBranch sw 0 L a s i ac).1,
      b.depth = CONFIG.maxDepth) := by
  constructor
  · intro b hb
    obtain ⟨h1, h2, h3⟩ :=
      createBranch_shape_aux CONFIG.maxDepth 0 (by omega) (by omega) sw L a s i ac b hb
    exact ⟨h1, fun he => h2 (le_of_eq he.symm), h3⟩
  · exact createBranch_reaches_aux CONFIG.maxDepth 0 (by omega) (by omega) sw L a s i ac

/-- Witness for C2 at a concrete generator input: the root node of the tree
generated with the zero oracle obeys the shape invariant, and the maximal
depth is attained. -/
theorem C2_tree_shape_witness :
    ((createBranch (fun _ => 0) 0 1 0 0 0 0).1.depth ≤ CONFIG.maxDepth) ∧
    (∃ b ∈ allNodes (createBranch (fun _ => 0) 0 1 0 0 0 0).1,
      b.depth = CONFIG.maxDepth) :=
  ⟨((C2_tree_shape (fun _ => 0) 1 0 0 0 0).1 _
      (self_mem_allNodes _)).1,
   (C2_tree_shape (fun _ => 0) 1 0 0 0 0).2⟩

/-- The clamped frame delta lies in `[8, 120]`. -/
theorem clampDelta_mem (d : ℝ) : 8 ≤ clampDelta d ∧ clampDelta d ≤ 120 := by
  unfold clampDelta
  exact ⟨le_min (le_max_right d 8) (by norm_num), min_le_right _ _⟩

/-- For a clamped delta the per-frame interpolation factor lies in
`[0.00176, 0.0264]` (so the `0.04` cap never binds). -/
theorem lerpFactor_mem (d : ℝ) :
    0.00176 ≤ lerpFactor (clampDelta d) ∧ lerpFactor (clampDelta d) ≤ 0.0264 := by
  obtain ⟨h1, h2⟩ := clampDelta_mem d
  unfold lerpFactor CONFIG.baseGrowthSpeed
  rw [clamp_id _ _ _ (by nlinarith) (by nlinarith)]
  constructor <;> nlinarith

/-- One growth step from below the target: the `[0, 1.08]` clamp is inert, the
step is exactly the eased increment, it strictly increases growth, stays below
the target, and shrinks the gap geometrically. -/
theorem growthStep_props (t e g : ℝ) (h0 : 0 ≤ g) (h1 : g < t) (h2 : t ≤ 1.08) :
    growthStep t e g = g + (t - g) * lerpFactor (clampDelta e) ∧
    g < growthStep t e g ∧ growthStep t e g < t ∧
    t - growthStep t e g ≤ (1 - 0.00176) * (t - g) := by
  obtain ⟨hf1, hf2⟩ := lerpFactor_mem e
  have heq : growthStep t e g = g + (t - g) * lerpFactor (clampDelta e) := by
    unfold growthStep
    exact clamp_id _ _ _ (by nlinarith) (by nlinarith)
  refine ⟨heq, ?_, ?_, ?_⟩ <;> rw [heq] <;> nlinarith

/-- Invariant of the growth sequence under a constant target above the start:
bounds, strict monotonicity, exact step formula and geometric gap decay. -/
theorem growthSeq_invariant (t : ℝ) (e : ℕ → ℝ) (g0 : ℝ)
    (h0 : 0 ≤ g0) (h1 : g0 < t) (h2 : t ≤ 1.08) (n : ℕ) :
    0 ≤ growthSeq t e g0 n ∧ growthSeq t e g0 n < t ∧
    growthSeq t e g0 n < growthSeq t e g0 (n + 1) ∧
    growthSeq t e g0 (n + 1) =
      growthSeq t e g0 n + (t - growthSeq t e g0 n) * lerpFactor (clampDelta (e n)) ∧
    t - growthSeq t e g0 n ≤ (1 - 0.00176) ^ n * (t - g0) := by
  induction n with
  | zero =>
    obtain ⟨heq, hgt, hlt, _⟩ := growthStep_props t (e 0) g0 h0 h1 h2
    simp only [growthSeq]
    exact ⟨h0, h1, hgt, heq, by norm_num⟩
  | succ n ih =>
    obtain ⟨ih0, ih1, ih2, ih3, ih4⟩ := ih
    have h0' : 0 ≤ growthSeq t e g0 (n + 1) := le_of_lt (lt_of_le_of_lt ih0 ih2)
    have h1' : growthSeq t e g0 (n + 1) < t := by
      obtain ⟨_, _, hlt, _⟩ := growthStep_props t (e n) (growthSeq t e g0 n) ih0 ih1 h2
      exact hlt
    obtain ⟨heq, hgt, hlt, hdec⟩ :=
      growthStep_props t (e (n + 1)) (growthSeq t e g0 (n + 1)) h0' h1' h2
    refine ⟨h0', h1', hgt, heq, ?_⟩
    obtain ⟨_, _, _, hdec'⟩ := growthStep_props t (e n) (growthSeq t e g0 n) ih0 ih1 h2
    calc t - growthSeq t e g0 (n + 1) ≤ (1 - 0.00176) * (t - growthSeq t e g0 n) :=
          hdec'
      _ ≤ (1 - 0.00176) * ((1 - 0.00176) ^ n * (t - g0)) := by nlinarith
      _ = (1 - 0.00176) ^ (n + 1) * (t - g0) := by ring

/-- C3: with a constant target strictly above the current growth (and within
the program's `[0, 1.08]` range), every frame adds exactly
`(targetGrowth - growth) * clamp(elapsedMs * baseGrowthSpeed, 0, 0.04)` with
the elapsed time clamped to `[8, 120]` ms, producing a strictly increasing
sequence that stays below the target (hence within `[0, 1.08]`) and converges
to it. -/
theorem C3_growth_easing (t : ℝ) (e : ℕ → ℝ) (g0 : ℝ)
    (h0 : 0 ≤ g0) (h1 : g0 < t) (h2 : t ≤ 1.08) :
    (∀ n, growthSeq t e g0 n < growthSeq t e g0 (n + 1)) ∧
    (∀ n, growthSeq t e g0 n < t) ∧
    (∀ n, 0 ≤ growthSeq t e g0 n ∧ growthSeq t e g0 n ≤ 1.08) ∧
    (∀ n, growthSeq t e g0 (n + 1) =
      growthSeq t e g0 n +
        (t - growthSeq t e g0 n) * clamp (clampDelta (e n) * CONFIG.baseGrowthSpeed) 0 0.04) ∧
    Filter.Tendsto (growthSeq t e g0) Filter.atTop (nhds t) := by
  refine ⟨fun n => (growthSeq_invariant t e g0 h0 h1 h2 n).2.2.1,
    fun n => (growthSeq_invariant t e g0 h0 h1 h2 n).2.1,
    fun n => ⟨(growthSeq_invariant t e g0 h0 h1 h2 n).1,
      le_of_lt (lt_of_lt_of_le (growthSeq_invariant t e g0 h0 h1 h2 n).2.1 h2)⟩,
    fun n => (growthSeq_invariant t e g0 h0 h1 h2 n).2.2.2.1, ?_⟩
  have hlow : ∀ n, t - (1 - 0.00176) ^ n * (t - g0) ≤ growthSeq t e g0 n := by
    intro n
    have := (growthSeq_invariant t e g0 h0 h1 h2 n).2.2.2.2
    linarith
  have hup : ∀ n, growthSeq t e g0 n ≤ t := fun n =>
    le_of_lt (growthSeq_invariant t e g0 h0 h1 h2 n).2.1
  have hpow : Filter.Tendsto (fun n : ℕ => (1 - 0.00176 : ℝ) ^ n)
      Filter.atTop (nhds 0) :=
    tendsto_pow_atTop_nhds_zero_of_lt_one (by norm_num) (by norm_num)
  have hlo : Filter.Tendsto (fun n : ℕ => t - (1 - 0.00176) ^ n * (t - g0))
      Filter.atTop (nhds t) := by
    have := (hpow.mul_const (t - g0)).const_sub t
    simpa using this
  exact tendsto_of_tendsto_of_tendsto_of_le_of_le hlo tendsto_const_nhds hlow hup

/-- Witness for C3 at the concrete input `target = 0.5`, `growth₀ = 0`,
constant 16 ms frames. -/
theorem C3_growth_easing_witness :
    (∀ n, growthSeq 0.5 (fun _ => 16) 0 n < growthSeq 0.5 (fun _ => 16) 0 (n + 1)) ∧
    Filter.Tendsto (growthSeq 0.5 (fun _ => 16) 0) Filter.atTop (nhds 0.5) := by
  have h := C3_growth_easing 0.5 (fun _ => 16) 0 (by norm_num) (by norm_num) (by norm_num)
  exact ⟨h.1, h.2.2.2.2⟩

/-- Projection: `spawnSaplings` does not change the life stage. -/
@[simp] theorem spawnSaplings_lifeStage (o : Oracle) (s : SimState) :
    (spawnSaplings o s).lifeStage = s.lifeStage := rfl

/-- Projection: `spawnSaplings` does not change the stage timer. -/
@[simp] theorem spawnSaplings_stageTimer (o : Oracle) (s : SimState) :
    (spawnSaplings o s).stageTimer = s.stageTimer := rfl

/-- Projection: `spawnSaplings` does not change the regen countdown. -/
@[simp] theorem spawnSaplings_regenCountdown (o : Oracle) (s : SimState) :
    (spawnSaplings o s).regenCountdown = s.regenCountdown := rfl

/-- Projection: `spawnSaplings` does not change the growth scalar. -/
@[simp] theorem spawnSaplings_growth_field (o : Oracle) (s : SimState) :
    (spawnSaplings o s).growth = s.growth := rfl

/-- Projection: `spawnSaplings` does not change the growth target. -/
@[simp] theorem spawnSaplings_targetGrowth (o : Oracle) (s : SimState) :
    (spawnSaplings o s).targetGrowth = s.targetGrowth := rfl

/-- Projection: `spawnSaplings` does not change the tree. -/
@[simp] theorem spawnSaplings_tree (o : Oracle) (s : SimState) :
    (spawnSaplings o s).tree = s.tree := rfl

/-- Projection: `spawnSaplings` does not change the allocation counter. -/
@[simp] theorem spawnSaplings_allocCtr (o : Oracle) (s : SimState) :
    (spawnSaplings o s).allocCtr = s.allocCtr := rfl

/-- A spawned sapling batch is never empty (`count = max(saplingMin, …) ≥ 2`). -/
theorem spawnSaplings_nonempty (o : Oracle) (s : SimState) :
    (spawnSaplings o s).saplings ≠ [] := by
  simp only [spawnSaplings, ne_eq, List.map_eq_nil_iff, List.range_eq_nil]
  have : (2 : ℤ) ≤ max (CONFIG.saplingMin : ℤ) ⌊(CONFIG.saplingMin : ℝ) +
      o.countRand * ((CONFIG.saplingMax : ℝ) - (CONFIG.saplingMin : ℝ) + 1) +
      ((min 3 (Int.fdiv s.fruitsRipened 6) : ℤ) : ℝ)⌋ := by
    simp [CONFIG.saplingMin]
  omega

/-- Every spawned sapling starts at `growth = 0.02`. -/
theorem spawnSaplings_growth (o : Oracle) (s : SimState) :
    ∀ sap ∈ (spawnSaplings o s).saplings, sap.growth = 0.02 := by
  intro sap hs
  simp only [spawnSaplings, List.mem_map] at hs
  obtain ⟨i, _, hi⟩ := hs
  rw [← hi]

/-- Stage step from `seed`: to `sprout` exactly when `growth > 0.18`. -/
theorem uls_seed (o : Oracle) (delta : ℝ) (s : SimState) (h : s.lifeStage = .seed) :
    (updateLifeStage o delta s).lifeStage = (if 0.18 < s.growth then .sprout else .seed) ∧
    (updateLifeStage o delta s).stageTimer = (if 0.18 < s.growth then 0 else s.stageTimer) := by
  simp only [updateLifeStage, h, setStage]
  split_ifs <;> simp_all

/-- Stage step from `sprout`: to `young` exactly when `growth > 0.42`. -/
theorem uls_sprout (o : Oracle) (delta : ℝ) (s : SimState) (h : s.lifeStage = .sprout) :
    (updateLifeStage o delta s).lifeStage = (if 0.42 < s.growth then .young else .sprout) ∧
    (updateLifeStage o delta s).stageTimer = (if 0.42 < s.growth then 0 else s.stageTimer) := by
  simp only [updateLifeStage, h, setStage]
  split_ifs <;> simp_all

/-- Stage step from `young`: to `mature` exactly when `growth > 0.66`. -/
theorem uls_young (o : Oracle) (delta : ℝ) (s : SimState) (h : s.lifeStage = .young) :
    (updateLifeStage o delta s).lifeStage = (if 0.66 < s.growth then .mature else .young) ∧
    (updateLifeStage o delta s).stageTimer = (if 0.66 < s.growth then 0 else s.stageTimer) := by
  simp only [updateLifeStage, h, setStage]
  split_ifs <;> simp_all

/-- Stage step from `mature`: to `fruit` exactly when `growth > 0.82` and the
stage timer exceeds 6000 ms. -/
theorem uls_mature (o : Oracle) (delta : ℝ) (s : SimState) (h : s.lifeStage = .mature) :
    (updateLifeStage o delta s).lifeStage =
      (if 0.82 < s.growth ∧ 6000 < s.stageTimer then .fruit else .mature) ∧
    (updateLifeStage o delta s).stageTimer =
      (if 0.82 < s.growth ∧ 6000 < s.stageTimer then 0 else s.stageTimer) := by
  simp only [updateLifeStage, h, setStage]
  split_ifs <;> simp_all

/-- Stage step from `fruit`: to `decline` exactly when the stage timer exceeds
32000 ms or the random decline event fires. -/
theorem uls_fruit (o : Oracle) (delta : ℝ) (s : SimState) (h : s.lifeStage = .fruit) :
    (updateLifeStage o delta s).lifeStage =
      (if 32000 < s.stageTimer ∨ o.fruitRand < delta * 0.0000006 then .decline else .fruit) ∧
    (updateLifeStage o delta s).stageTimer =
      (if 32000 < s.stageTimer ∨ o.fruitRand < delta * 0.0000006 then 0 else s.stageTimer) := by
  simp only [updateLifeStage, h, setStage]
  split_ifs <;> simp_all

/-- Stage step from `decline`: to `seedFall` exactly when `growth < 0.30`. -/
theorem uls_decline (o : Oracle) (delta : ℝ) (s : SimState) (h : s.lifeStage = .decline) :
    (updateLifeStage o delta s).lifeStage = (if s.growth < 0.3 then .seedFall else .decline) ∧
    (updateLifeStage o delta s).stageTimer = (if s.growth < 0.3 then 0 else s.stageTimer) := by
  simp only [updateLifeStage, h, setStage]
  split_ifs <;> simp_all

/-- Stage step from `seedFall`: to `rebirth` exactly when the accumulated
regen countdown (incremented by this frame's delta) exceeds 18000 ms. -/
theorem uls_seedFall (o : Oracle) (delta : ℝ) (s : SimState) (h : s.lifeStage = .seedFall) :
    (updateLifeStage o delta s).lifeStage =
      (if 18000 < s.regenCountdown + delta then .rebirth else .seedFall) ∧
    (updateLifeStage o delta s).stageTimer =
      (if 18000 < s.regenCountdown + delta then 0 else s.stageTimer) := by
  simp only [updateLifeStage, h, setStage]
  split_ifs <;> simp_all

/-- Stage step from `rebirth`: to `sprout` exactly when saplings exist and all
of them have grown past 0.98 (a batch spawned this frame starts at 0.02 and
cannot trigger the transition). -/
theorem uls_rebirth (o : Oracle) (delta : ℝ) (s : SimState) (h : s.lifeStage = .rebirth) :
    (updateLifeStage o delta s).lifeStage =
      (if s.saplings ≠ [] ∧ ∀ sap ∈ s.saplings, 0.98 < sap.growth then .sprout else .rebirth) ∧
    (updateLifeStage o delta s).stageTimer =
      (if s.saplings ≠ [] ∧ ∀ sap ∈ s.saplings, 0.98 < sap.growth then 0 else s.stageTimer) := by
  simp only [updateLifeStage, h, setStage]
  by_cases he : s.saplings = []
  · have hne := spawnSaplings_nonempty o s
    have hg := spawnSaplings_growth o s
    obtain ⟨sap, hsap⟩ := List.exists_mem_of_ne_nil _ hne
    have hnot : ¬ (∀ x ∈ (spawnSaplings o s).saplings, 0.98 < x.growth) := by
      intro hall
      have := hall sap hsap
      rw [hg sap hsap] at this
      norm_num at this
    simp [he, hnot, h]
  · simp only [he, if_neg]
    split_ifs <;> simp_all

/-- C4: from every state, one `updateLifeStage` step changes the life stage
only along the transitions of the stage table — seed→sprout on growth > 0.18,
sprout→young on growth > 0.42, young→mature on growth > 0.66, mature→fruit on
growth > 0.82 with stageTimer > 6000 ms, fruit→decline on stageTimer > 32000 ms
or the random event, decline→seedFall on growth < 0.30, seedFall→rebirth once
regenCountdown passes 18000 ms, rebirth→sprout once every sapling's growth
exceeds 0.98 — with no other change and no skipped stage, and `stageTimer`
resets to 0 on every transition. -/
theorem C4_stage_machine (o : Oracle) (delta : ℝ) (s : SimState) :
    ((updateLifeStage o delta s).lifeStage ≠ s.lifeStage →
      (updateLifeStage o delta s).stageTimer = 0) ∧
    (s.lifeStage = .seed → (updateLifeStage o delta s).lifeStage =
      (if 0.18 < s.growth then .sprout else .seed)) ∧
    (s.lifeStage = .sprout → (updateLifeStage o delta s).lifeStage =
      (if 0.42 < s.growth then .young else .sprout)) ∧
    (s.lifeStage = .young → (updateLifeStage o delta s).lifeStage =
      (if 0.66 < s.growth then .mature else .young)) ∧
    (s.lifeStage = .mature → (updateLifeStage o delta s).lifeStage =
      (if 0.82 < s.growth ∧ 6000 < s.stageTimer then .fruit else .mature)) ∧
    (s.lifeStage = .fruit → (updateLifeStage o delta s).lifeStage =
      (if 32000 < s.stageTimer ∨ o.fruitRand < delta * 0.0000006 then .decline else .fruit)) ∧
    (s.lifeStage = .decline → (updateLifeStage o delta s).lifeStage =
      (if s.growth < 0.3 then .seedFall else .decline)) ∧
    (s.lifeStage = .seedFall → (updateLifeStage o delta s).lifeStage =
      (if 18000 < s.regenCountdown + delta then .rebirth else .seedFall)) ∧
    (s.lifeStage = .rebirth → (updateLifeStage o delta s).lifeStage =
      (if s.saplings ≠ [] ∧ ∀ sap ∈ s.saplings, 0.98 < sap.growth
        then .sprout else .rebirth)) := by
  refine ⟨?_, fun h => (uls_seed o delta s h).1, fun h => (uls_sprout o delta s h).1,
    fun h => (uls_young o delta s h).1, fun h => (uls_mature o delta s h).1,
    fun h => (uls_fruit o delta s h).1, fun h => (uls_decline o delta s h).1,
    fun h => (uls_seedFall o delta s h).1, fun h => (uls_rebirth o delta s h).1⟩
  intro hne
  cases hst : s.lifeStage
  case seed =>
    obtain ⟨hL, hT⟩ := uls_seed o delta s hst
    by_cases hc : 0.18 < s.growth
    · rw [hT, if_pos hc]
    · rw [hL, if_neg hc] at hne
      exact absurd hst.symm hne
  case sprout =>
    obtain ⟨hL, hT⟩ := uls_sprout o delta s hst
    by_cases hc : 0.42 < s.growth
    · rw [hT, if_pos hc]
    · rw [hL, if_neg hc] at hne
      exact absurd hst.symm hne
  case young =>
    obtain ⟨hL, hT⟩ := uls_young o delta s hst
    by_cases hc : 0.66 < s.growth
    · rw [hT, if_pos hc]
    · rw [hL, if_neg hc] at hne
      exact absurd hst.symm hne
  case mature =>
    obtain ⟨hL, hT⟩ := uls_mature o delta s hst
    by_cases hc : 0.82 < s.growth ∧ 6000 < s.stageTimer
    · rw [hT, if_pos hc]
    · rw [hL, if_neg hc] at hne
      exact absurd hst.symm hne
  case fruit =>
    obtain ⟨hL, hT⟩ := uls_fruit o delta s hst
    by_cases hc : 32000 < s.stageTimer ∨ o.fruitRand < delta * 0.0000006
    · rw [hT, if_pos hc]
    · rw [hL, if_neg hc] at hne
      exact absurd hst.symm hne
  case decline =>
    obtain ⟨hL, hT⟩ := uls_decline o delta s hst
    by_cases hc : s.growth < 0.3
    · rw [hT, if_pos hc]
    · rw [hL, if_neg hc] at hne
      exact absurd hst.symm hne
  case seedFall =>
    obtain ⟨hL, hT⟩ := uls_seedFall o delta s hst
    by_cases hc : 18000 < s.regenCountdown + delta
    · rw [hT, if_pos hc]
    · rw [hL, if_neg hc] at hne
      exact absurd hst.symm hne
  case rebirth =>
    obtain ⟨hL, hT⟩ := uls_rebirth o delta s hst
    by_cases hc : s.saplings ≠ [] ∧ ∀ sap ∈ s.saplings, 0.98 < sap.growth
    · rw [hT, if_pos hc]
    · rw [hL, if_neg hc] at hne
      exact absurd hst.symm hne

/-- Zero oracle used by concrete witnesses. -/
def oracle0 : Oracle :=
  ⟨0, 0, fun _ => 0, fun _ => 0, fun _ => 0, fun _ => 0, 0, fun _ => 0⟩

/-- Trivial concrete branch used by concrete witnesses. -/
def leafBranch : Branch :=
  Branch.mk 0 0 0 1 0 0 0 1 ⟨0, 0, 0⟩ false 0 0 none []

/-- Concrete simulation state in stage `seed` with growth 0.5. -/
def seedState : SimState :=
  ⟨.seed, 5, 0, 0.5, 0.6, [], 0, leafBranch, 1, 1, 800, 600⟩

/-- Witness for C4: from the concrete `seed` state with growth 0.5, the step
transitions to `sprout` and resets the stage timer. -/
theorem C4_stage_machine_witness :
    (updateLifeStage oracle0 16 seedState).lifeStage = .sprout ∧
    (updateLifeStage oracle0 16 seedState).stageTimer = 0 := by
  have h := C4_stage_machine oracle0 16 seedState
  have h1 := h.2.1 rfl
  rw [if_pos (by norm_num [seedState] : (0.18 : ℝ) < seedState.growth)] at h1
  refine ⟨h1, h.1 ?_⟩
  rw [h1]
  intro hcontra
  exact absurd hcontra (by simp [seedState])

/-- C8: every `spawnSaplings` call creates exactly
`max(saplingMin, floor(random(saplingMin, saplingMax+1) + fruitBonus))`
saplings, where `fruitBonus = min(3, floor(fruitsRipened / 6))`; it decrements
`fruitsRipened` by `fruitBonus * 3` floored at 0; and every spawned sapling
starts with `growth = 0.02`. -/
theorem C8_spawn_saplings (o : Oracle) (s : SimState) :
    (spawnSaplings o s).saplings.length =
      (max (CONFIG.saplingMin : ℤ)
        ⌊(CONFIG.saplingMin : ℝ) +
          o.countRand * ((CONFIG.saplingMax : ℝ) - (CONFIG.saplingMin : ℝ) + 1) +
          ((min 3 (Int.fdiv s.fruitsRipened 6) : ℤ) : ℝ)⌋).toNat ∧
    (spawnSaplings o s).fruitsRipened =
      max 0 (s.fruitsRipened - min 3 (Int.fdiv s.fruitsRipened 6) * 3) ∧
    ∀ sap ∈ (spawnSaplings o s).saplings, sap.growth = 0.02 := by
  refine ⟨?_, rfl, spawnSaplings_growth o s⟩
  simp [spawnSaplings]

/-- Witness for C8 at the concrete zero oracle and seed state: two saplings
spawn, the ripened-fruit counter stays 0, and the first spawned sapling starts
at growth 0.02. -/
theorem C8_spawn_saplings_witness :
    (spawnSaplings oracle0 seedState).saplings.length = 2 ∧
    (spawnSaplings oracle0 seedState).fruitsRipened = 0 ∧
    ∃ sap ∈ (spawnSaplings oracle0 seedState).saplings, sap.growth = 0.02 := by
  obtain ⟨h1, h2, h3⟩ := C8_spawn_saplings oracle0 seedState
  obtain ⟨sap, hsap⟩ :=
    List.exists_mem_of_ne_nil _ (spawnSaplings_nonempty oracle0 seedState)
  refine ⟨?_, ?_, sap, hsap, h3 sap hsap⟩
  · rw [h1]
    norm_num [seedState, oracle0, CONFIG.saplingMin, CONFIG.saplingMax]
    rfl
  · rw [h2]
    norm_num [seedState]

/-- In stage `rebirth` with a nonempty, fully grown sapling batch, the update
rebuilds the tree via `buildTree`, resets the growth scalars and sapling list,
and transitions to `sprout` with the stage timer reset. -/
theorem uls_rebirth_rebuild (o : Oracle) (delta : ℝ) (s : SimState)
    (h : s.lifeStage = .rebirth) (hne : s.saplings ≠ [])
    (hall : ∀ sap ∈ s.saplings, 0.98 < sap.growth) :
    (updateLifeStage o delta s).growth = 0.05 ∧
    (updateLifeStage o delta s).targetGrowth = 0.15 ∧
    (updateLifeStage o delta s).saplings = [] ∧
    (updateLifeStage o delta s).lifeStage = .sprout ∧
    (updateLifeStage o delta s).stageTimer = 0 ∧
    (updateLifeStage o delta s).tree = (buildTree o s).1 ∧
    (updateLifeStage o delta s).allocCtr = (buildTree o s).2.2 := by
  simp only [updateLifeStage, h, setStage]
  rw [if_neg hne, if_pos hall]
  simp [h]

/-- Allocation tags of a generated subtree all lie in `[ac, ac')` where `ac'`
is the returned allocation counter, which strictly increases (auxiliary
induction on remaining depth). -/
theorem createBranch_alloc_aux (n : ℕ) :
    ∀ depth, CONFIG.maxDepth - depth ≤ n →
    ∀ (sw : ℕ → ℝ) (L a s : ℝ) (i ac : ℕ),
    (∀ b ∈ allNodes (createBranch sw depth L a s i ac).1,
      ac ≤ b.alloc ∧ b.alloc < (createBranch sw depth L a s i ac).2.2) ∧
    ac < (createBranch sw depth L a s i ac).2.2 := by
  induction n with
  | zero =>
    intro depth hd sw L a s i ac
    have h : CONFIG.maxDepth ≤ depth := by omega
    rw [createBranch_leaf _ _ _ _ _ _ _ h]
    constructor
    · intro b hb
      simp [allNodes, allNodesL] at hb
      subst hb
      simp [Branch.alloc]
    · simp
  | succ n ih =>
    intro depth hd sw L a s i ac
    by_cases h : CONFIG.maxDepth ≤ depth
    · rw [createBranch_leaf _ _ _ _ _ _ _ h]
      constructor
      · intro b hb
        simp [allNodes, allNodesL] at hb
        subst hb
        simp [Branch.alloc]
      · simp
    · have hd' : CONFIG.maxDepth - (depth + 1) ≤ n := by
        unfold CONFIG.maxDepth at *; omega
      by_cases h3 : 1 < depth ∧ 0.58 < seededRandom (s + 4)
      · rw [createBranch_three _ _ _ _ _ _ _ h h3]
        simp only []
        obtain ⟨m1, l1⟩ := ih (depth + 1) hd' sw (L * lenFactorOf depth s)
          (a + spreadOf s + leanOf s) (s * 1.71 + 1) (i + 1) (ac + 1)
        obtain ⟨m2, l2⟩ := ih (depth + 1) hd' sw (L * lenFactorOf depth s)
          (a - spreadOf s + leanOf s) (s * 1.71 + 2) (createBranch sw (depth + 1) (L * lenFactorOf depth s)
            (a + spreadOf s + leanOf s) (s * 1.71 + 1) (i + 1) (ac + 1)).2.1 (createBranch sw (depth + 1) (L * lenFactorOf depth s)
            (a + spreadOf s + leanOf s) (s * 1.71 + 1) (i + 1) (ac + 1)).2.2
        obtain ⟨m3, l3⟩ := ih (depth + 1) hd' sw (L * (lenFactorOf depth s * 0.9))
          (a + varianceOf s) (s * 1.71 + 3) (createBranch sw (depth + 1) (L * lenFactorOf depth s)
            (a - spreadOf s + leanOf s) (s * 1.71 + 2) (createBranch sw (depth + 1) (L * lenFactorOf depth s)
            (a + spreadOf s + leanOf s) (s * 1.71 + 1) (i + 1) (ac + 1)).2.1 (createBranch sw (depth + 1) (L * lenFactorOf depth s)
            (a + spreadOf s + leanOf s) (s * 1.71 + 1) (i + 1) (ac + 1)).2.2).2.1 (createBranch sw (depth + 1) (L * lenFactorOf depth s)
            (a - spreadOf s + leanOf s) (s * 1.71 + 2) (createBranch sw (depth + 1) (L * lenFactorOf depth s)
            (a + spreadOf s + leanOf s) (s * 1.71 + 1) (i + 1) (ac + 1)).2.1 (createBranch sw (depth + 1) (L * lenFactorOf depth s)
            (a + spreadOf s + leanOf s) (s * 1.71 + 1) (i + 1) (ac + 1)).2.2).2.2
        constructor
        · intro b hb
          simp only [allNodes, allNodesL, List.append_nil, List.mem_cons,
            List.mem_append] at hb
          rcases hb with hb | hb | hb | hb
          · subst hb
            simp only [Branch.alloc]
            omega
          · have := m1 b hb
            omega
          · have := m2 b hb
            omega
          · have := m3 b hb
            omega
        · omega
      · rw [createBranch_two _ _ _ _ _ _ _ h h3]
        simp only []
        obtain ⟨m1, l1⟩ := ih (depth + 1) hd' sw (L * lenFactorOf depth s)
          (a + spreadOf s + leanOf s) (s * 1.71 + 1) (i + 1) (ac + 1)
        obtain ⟨m2, l2⟩ := ih (depth + 1) hd' sw (L * lenFactorOf depth s)
          (a - spreadOf s + leanOf s) (s * 1.71 + 2) (createBranch sw (depth + 1) (L * lenFactorOf depth s)
            (a + spreadOf s + leanOf s) (s * 1.71 + 1) (i + 1) (ac + 1)).2.1 (createBranch sw (depth + 1) (L * lenFactorOf depth s)
            (a + spreadOf s + leanOf s) (s * 1.71 + 1) (i + 1) (ac + 1)).2.2
        constructor
        · intro b hb
          simp only [allNodes, allNodesL, List.append_nil, List.mem_cons,
            List.mem_append] at hb
          rcases hb with hb | hb | hb
          · subst hb
            simp only [Branch.alloc]
            omega
          · have := m1 b hb
            omega
          · have := m2 b hb
            omega
        · omega

/-- C7: whenever the life stage is `rebirth` and every sapling of the
(nonempty) batch has growth above 0.98, the next update rebuilds the tree with
a fresh generator call whose nodes are all newly allocated (no allocation tag
of the previous tree survives), resets `growth` to 0.05 and `targetGrowth` to
0.15, clears the sapling list, and transitions the stage to `sprout`. -/
theorem C7_regeneration (o : Oracle) (delta : ℝ) (s : SimState)
    (h : s.lifeStage = .rebirth) (hne : s.saplings ≠ [])
    (hall : ∀ sap ∈ s.saplings, 0.98 < sap.growth)
    (hfresh : ∀ b ∈ allNodes s.tree, b.alloc < s.allocCtr) :
    (updateLifeStage o delta s).growth = 0.05 ∧
    (updateLifeStage o delta s).targetGrowth = 0.15 ∧
    (updateLifeStage o delta s).saplings = [] ∧
    (updateLifeStage o delta s).lifeStage = .sprout ∧
    (updateLifeStage o delta s).stageTimer = 0 ∧
    (updateLifeStage o delta s).tree = (buildTree o s).1 ∧
    (∀ bNew ∈ allNodes (updateLifeStage o delta s).tree,
      ∀ bOld ∈ allNodes s.tree, bNew.alloc ≠ bOld.alloc) := by
  obtain ⟨hg, ht, hsap, hl, hst, htree, hac⟩ := uls_rebirth_rebuild o delta s h hne hall
  refine ⟨hg, ht, hsap, hl, hst, htree, ?_⟩
  intro bNew hbNew bOld hbOld
  rw [htree] at hbNew
  have hb' : bNew ∈ allNodes (createBranch o.sway 0 (min s.width s.height * 0.25)
      0 (o.rootRand * 1000) 0 s.allocCtr).1 := by
    simpa [buildTree] using hbNew
  have hrange := (createBranch_alloc_aux CONFIG.maxDepth 0 (by omega) o.sway
    (min s.width s.height * 0.25) 0 (o.rootRand * 1000) 0 s.allocCtr).1 bNew hb'
  have hOld := hfresh bOld hbOld
  omega

/-- Concrete fully grown sapling used by the C7 witness. -/
def grownSapling : Sapling := ⟨0, 0, 1, 0, 0⟩

/-- Concrete simulation state in stage `rebirth` with one fully grown sapling. -/
def rebirthState : SimState :=
  ⟨.rebirth, 3, 19000, 0.2, 0.24, [grownSapling], 0, leafBranch, 1, 1, 800, 600⟩

/-- Witness for C7 at the concrete rebirth state: the update resets growth to
0.05, clears the saplings and lands in `sprout`. -/
theorem C7_regeneration_witness :
    (updateLifeStage oracle0 16 rebirthState).growth = 0.05 ∧
    (updateLifeStage oracle0 16 rebirthState).saplings = [] ∧
    (updateLifeStage oracle0 16 rebirthState).lifeStage = .sprout := by
  have h := C7_regeneration oracle0 16 rebirthState rfl
    (by simp [rebirthState])
    (by
      intro sap hsap
      simp only [rebirthState, List.mem_singleton] at hsap
      rw [hsap]
      norm_num [grownSapling])
    (by
      intro b hb
      simp only [rebirthState, leafBranch, allNodes, allNodesL] at hb ⊢
      simp at hb
      rw [hb]
      simp [Branch.alloc])
  exact ⟨h.1, h.2.2.1, h.2.2.2.1⟩

/-- The best distance tracked by the scan never increases. -/
theorem sawScan_best_le (px py : ℝ) (l : List Seg) (acc : Option Seg × ℝ) :
    (sawScan px py l acc).2 ≤ acc.2 := by
  induction l generalizing acc with
  | nil => exact le_refl _
  | cons t rest ih =>
    simp only [sawScan]
    split_ifs with h1 h2
    · exact ih acc
    · exact le_trans (ih _) (le_of_lt h2)
    · exact ih acc

/-- A segment chosen by the scan was either already the accumulator's choice,
or is an eligible member of the list whose distance equals the final best
distance, strictly below the initial bound. -/
theorem sawScan_some (px py : ℝ) (l : List Seg) (acc : Option Seg × ℝ) (s : Seg)
    (h : (sawScan px py l acc).1 = some s) :
    (acc.1 = some s ∧ (sawScan px py l acc).2 = acc.2) ∨
    (s ∈ l ∧ s.depth ≠ 0 ∧ s.pruned = false ∧
      segDist s px py = (sawScan px py l acc).2 ∧
      (sawScan px py l acc).2 < acc.2) := by
  induction l generalizing acc with
  | nil => exact Or.inl ⟨h, rfl⟩
  | cons t rest ih =>
    simp only [sawScan] at h ⊢
    split_ifs at h ⊢ with h1 h2
    · rcases ih acc h with h' | h'
      · exact Or.inl h'
      · exact Or.inr ⟨List.mem_cons_of_mem t h'.1, h'.2⟩
    · rcases ih (some t, segDist t px py) h with h' | h'
      · obtain ⟨he, hv⟩ := h'
        obtain rfl : t = s := by simpa using he
        have hv' : (sawScan px py rest (some t, segDist t px py)).2 =
            segDist t px py := by simpa using hv
        push_neg at h1
        refine Or.inr ⟨List.mem_cons_self _ _, h1.1, by simpa using h1.2,
          hv'.symm, ?_⟩
        rw [hv']
        exact h2
      · exact Or.inr ⟨List.mem_cons_of_mem t h'.1, h'.2.1, h'.2.2.1, h'.2.2.2.1,
          lt_trans h'.2.2.2.2 h2⟩
    · rcases ih acc h with h' | h'
      · exact Or.inl h'
      · exact Or.inr ⟨List.mem_cons_of_mem t h'.1, h'.2⟩

/-- The final best distance is a lower bound on the distance of every
eligible segment of the list. -/
theorem sawScan_min (px py : ℝ) (l : List Seg) (acc : Option Seg × ℝ) :
    ∀ s ∈ l, s.depth ≠ 0 → s.pruned = false →
      (sawScan px py l acc).2 ≤ segDist s px py := by
  induction l generalizing acc with
  | nil => intro s hs; exact absurd hs (List.not_mem_nil s)
  | cons t rest ih =>
    intro s hs hd hp
    rcases List.mem_cons.mp hs with rfl | hs'
    · simp only [sawScan]
      split_ifs with h1 h2
      · exact absurd h1 (by simp [hd, hp])
      · simpa using sawScan_best_le px py rest (some s, segDist s px py)
      · push_neg at h2
        exact le_trans (sawScan_best_le px py rest acc) h2
    · simp only [sawScan]
      split_ifs with h1 h2
      · exact ih acc s hs' hd hp
      · exact ih _ s hs' hd hp
      · exact ih acc s hs' hd hp

/-- If the scan ends with no choice, the accumulator already had none and the
best distance is unchanged. -/
theorem sawScan_none (px py : ℝ) (l : List Seg) (acc : Option Seg × ℝ)
    (h : (sawScan px py l acc).1 = none) :
    acc.1 = none ∧ (sawScan px py l acc).2 = acc.2 := by
  induction l generalizing acc with
  | nil => exact ⟨h, rfl⟩
  | cons t rest ih =>
    simp only [sawScan] at h ⊢
    split_ifs at h ⊢ with h1 h2
    · exact ih acc h
    · obtain ⟨he, _⟩ := ih _ h
      simp at he
    · exact ih acc h

/-- Marking a branch id as pruned rewrites exactly the matching entries of the
per-node pruning state and leaves every other node untouched. -/
theorem prunedMap_markPruned_all (bid : ℕ) (rg : ℝ) : ∀ n : ℕ,
    (∀ t : Branch, sizeOf t ≤ n →
      prunedMap (markPruned bid rg t) =
        (prunedMap t).map (fun e => if e.1 = bid then (e.1, true, rg) else e)) ∧
    (∀ l : List Branch, sizeOf l ≤ n →
      prunedMapL (markPrunedL bid rg l) =
        (prunedMapL l).map (fun e => if e.1 = bid then (e.1, true, rg) else e)) := by
  intro n
  induction n using Nat.strong_induction_on with
  | _ n ih =>
    constructor
    · intro t hsz
      cases t with
      | mk i al d L a s sp bw c p prg pl f ch =>
        have hch : sizeOf ch < n := by
          have h1 : sizeOf ch < sizeOf (Branch.mk i al d L a s sp bw c p prg pl f ch) := by
            simp
          omega
        have hlist := (ih (sizeOf ch) hch).2 ch (le_refl _)
        simp only [markPruned, prunedMap]
        split_ifs with hib <;> simp [prunedMap, hlist, hib]
    · intro l hsz
      cases l with
      | nil => simp [markPrunedL, prunedMapL]
      | cons b bs =>
        have hb : sizeOf b < n := by
          have h1 : sizeOf b < sizeOf (b :: bs) := by
            simp
            omega
          omega
        have hbs : sizeOf bs < n := by
          have h1 : sizeOf bs < sizeOf (b :: bs) := by simp
          omega
        have h2 := (ih (sizeOf b) hb).1 b (le_refl _)
        have h3 := (ih (sizeOf bs) hbs).2 bs (le_refl _)
        simp only [markPrunedL, prunedMapL, h2, h3, List.map_append]

/-- C5: a cut attempt is a no-op during the 140 ms cooldown; otherwise it
considers only segments whose branch has depth > 0 and is not pruned, selects
one minimizing the point-to-segment distance, rejects leaving all state
(including `lastCut`) unchanged when every eligible segment is farther than
the 28 px radius, and on success marks exactly the chosen branch pruned with
`regrowAt = now + [18000, 32000)` ms and updates `lastCut = now`. -/
theorem C5_perform_saw_cut (segs : List Seg) (px py now lastCut rand : ℝ) (t : Branch) :
    (now - lastCut < CONFIG.sawCooldown →
      performSawCut segs px py now lastCut rand t = ⟨none, lastCut, t⟩) ∧
    ((performSawCut segs px py now lastCut rand t).cut = none →
      performSawCut segs px py now lastCut rand t = ⟨none, lastCut, t⟩) ∧
    ((∀ s ∈ segs, s.depth ≠ 0 → s.pruned = false →
        CONFIG.sawRadius < segDist s px py) →
      performSawCut segs px py now lastCut rand t = ⟨none, lastCut, t⟩) ∧
    (∀ s rg, (performSawCut segs px py now lastCut rand t).cut = some (s, rg) →
      s ∈ segs ∧ s.depth ≠ 0 ∧ s.pruned = false ∧
      segDist s px py < CONFIG.sawRadius ∧
      (∀ s' ∈ segs, s'.depth ≠ 0 → s'.pruned = false →
        segDist s px py ≤ segDist s' px py) ∧
      rg = now + 18000 + rand * 14000 ∧
      (0 ≤ rand → rand < 1 → now + 18000 ≤ rg ∧ rg < now + 32000) ∧
      (performSawCut segs px py now lastCut rand t).lastCut = now ∧
      prunedMap (performSawCut segs px py now lastCut rand t).tree =
        (prunedMap t).map (fun e => if e.1 = s.bid then (e.1, true, rg) else e)) := by
  by_cases hseg : segs = []
  · refine ⟨fun _ => by simp [performSawCut, hseg], fun _ => by simp [performSawCut, hseg],
      fun _ => by simp [performSawCut, hseg], fun s rg hcut => ?_⟩
    simp [performSawCut, hseg] at hcut
  by_cases hcool : now - lastCut < CONFIG.sawCooldown
  · refine ⟨fun _ => by simp [performSawCut, hseg, hcool],
      fun _ => by simp [performSawCut, hseg, hcool],
      fun _ => by simp [performSawCut, hseg, hcool], fun s rg hcut => ?_⟩
    simp [performSawCut, hseg, hcool] at hcut
  rcases hscan : sawScan px py segs (none, CONFIG.sawRadius) with ⟨os, bd⟩
  cases os with
  | none =>
    have hres : performSawCut segs px py now lastCut rand t = ⟨none, lastCut, t⟩ := by
      simp [performSawCut, hseg, hcool, hscan]
    refine ⟨fun h => absurd h hcool, fun _ => hres, fun _ => hres, fun s rg hcut => ?_⟩
    rw [hres] at hcut
    simp at hcut
  | some s0 =>
    have hs0 := sawScan_some px py segs (none, CONFIG.sawRadius) s0 (by rw [hscan])
    rcases hs0 with ⟨habs, _⟩ | ⟨hmem, hd0, hp0, hdist, hlt⟩
    · simp at habs
    rw [hscan] at hdist hlt
    simp only at hdist hlt
    have hmin : ∀ s' ∈ segs, s'.depth ≠ 0 → s'.pruned = false →
        segDist s0 px py ≤ segDist s' px py := by
      intro s' hs' hd' hp'
      have := sawScan_min px py segs (none, CONFIG.sawRadius) s' hs' hd' hp'
      rw [hscan] at this
      simp only at this
      rw [hdist]
      exact this
    have hres : performSawCut segs px py now lastCut rand t =
        ⟨some (s0, now + 18000 + rand * 14000), now,
          markPruned s0.bid (now + 18000 + rand * 14000) t⟩ := by
      simp [performSawCut, hseg, hcool, hscan]
    refine ⟨fun h => absurd h hcool, ?_, ?_, ?_⟩
    · rw [hres]
      intro hnone
      simp at hnone
    · intro hfar
      have h1 := hfar s0 hmem hd0 hp0
      rw [← hdist] at hlt
      exact absurd h1 (by linarith)
    · intro s rg hcut
      rw [hres] at hcut
      simp only [Option.some.injEq, Prod.mk.injEq] at hcut
      obtain ⟨rfl, rfl⟩ := hcut
      refine ⟨hmem, hd0, hp0, ?_, hmin, rfl, ?_, by rw [hres], ?_⟩
      · rw [hdist]
        exact hlt
      · intro hr0 hr1
        unfold CONFIG.sawCooldown at *
        constructor <;> nlinarith
      · rw [hres]
        exact (prunedMap_markPruned_all s0.bid (now + 18000 + rand * 14000)
          (sizeOf t)).1 t (le_refl _)

/-- Concrete segment used by the C5 witness: a vertical branch segment. -/
def sawSeg : Seg := ⟨5, 1, false, 0, 0, 0, 100⟩

/-- Distance from the pointer at `(5, 50)` to the witness segment is 5 px. -/
theorem sawSeg_dist : segDist sawSeg 5 50 = 5 := by
  unfold segDist closestPoint
  simp only [sawSeg]
  norm_num
  rw [clamp_id _ _ _ (by norm_num) (by norm_num)]
  norm_num
  rw [show (25 : ℝ) = 5 ^ 2 by norm_num, Real.sqrt_sq (by norm_num : (0:ℝ) ≤ 5)]

/-- Witness for C5: at the concrete segment a cut succeeds and updates
`lastCut`, and a second attempt 50 ms later is rejected unchanged. -/
theorem C5_perform_saw_cut_witness :
    (performSawCut [sawSeg] 5 50 1000 0 (1/2) leafBranch).lastCut = 1000 ∧
    performSawCut [] 5 50 100 50 (1/2) leafBranch = ⟨none, 50, leafBranch⟩ := by
  have hscan : sawScan 5 50 [sawSeg] (none, CONFIG.sawRadius) = (some sawSeg, 5) := by
    simp only [sawScan]
    rw [if_neg (by simp [sawSeg])]
    rw [if_pos (by rw [sawSeg_dist]; unfold CONFIG.sawRadius; norm_num)]
    rw [sawSeg_dist]
  have hcut : (performSawCut [sawSeg] 5 50 1000 0 (1/2) leafBranch).cut =
      some (sawSeg, 1000 + 18000 + (1/2) * 14000) := by
    simp [performSawCut, hscan, CONFIG.sawCooldown]
    norm_num
  have h := (C5_perform_saw_cut [sawSeg] 5 50 1000 0 (1/2) leafBranch).2.2.2
    sawSeg (1000 + 18000 + (1/2) * 14000) hcut
  refine ⟨h.2.2.2.2.2.2.2.1, ?_⟩
  exact (C5_perform_saw_cut [] 5 50 100 50 (1/2) leafBranch).1
    (by unfold CONFIG.sawCooldown; norm_num)

/-- C6: a pruned branch reached by the render walk stays pruned and renders
no segment (only the stub) at every evaluation with `time ≤ regrowAt`; at the
first evaluation with `time > regrowAt` its `pruned` flag is false again and
its segment is recorded once more, restoring full recursive rendering of its
subtree. -/
theorem C6_cut_regrow (g : Glob) (time pa sx sy : ℝ)
    (i al d : ℕ) (L a s sp bw : ℝ) (col : Color) (prg pl : ℝ)
    (f : Option (List Fruit)) (ch : List Branch) (c : ℤ) (ri : ℕ)
    (hprog : ¬ clamp ((g.growth - (d : ℝ) * CONFIG.growthDelayPerLevel) /
      (1 - (d : ℝ) * CONFIG.growthDelayPerLevel)) 0 1 ≤ 0) :
    (¬ prg < time →
      drawBranch g time pa sx sy (Branch.mk i al d L a s sp bw col true prg pl f ch) c ri =
        (Branch.mk i al d L a s sp bw col true prg pl f ch, [], c, ri)) ∧
    (prg < time →
      (drawBranch g time pa sx sy (Branch.mk i al d L a s sp bw col true prg pl f ch) c ri).1.pruned
        = false ∧
      ∃ sg ∈ (drawBranch g time pa sx sy
          (Branch.mk i al d L a s sp bw col true prg pl f ch) c ri).2.1,
        sg.bid = i ∧ sg.pruned = false) := by
  constructor
  · intro ht
    simp only [drawBranch]
    rw [if_neg hprog, if_pos ⟨trivial, ht⟩]
  · intro ht
    simp only [drawBranch]
    rw [if_neg hprog, if_neg (by simp [ht])]
    split_ifs <;>
      exact ⟨by simp [Branch.pruned], _, List.mem_cons_self _ _, by simp, by simp⟩

/-- Concrete global scalars (full growth, no wind) for the C6 witness. -/
def glob0 : Glob := ⟨1, 0, .young, 16, 0, fun _ => 0⟩

/-- Concrete pruned leaf branch with `regrowAt = 500` for the C6 witness. -/
def prunedLeaf : Branch := Branch.mk 0 0 0 1 0 0 0 1 ⟨0, 0, 0⟩ true 500 0 none []

/-- Witness for C6: at time 400 the pruned leaf is untouched and hidden, at
time 600 (past `regrowAt = 500`) its pruned flag is cleared. -/
theorem C6_cut_regrow_witness :
    drawBranch glob0 400 0 0 0 prunedLeaf 0 0 = (prunedLeaf, [], 0, 0) ∧
    (drawBranch glob0 600 0 0 0 prunedLeaf 0 0).1.pruned = false := by
  have h1 := (C6_cut_regrow glob0 400 0 0 0 0 0 0 1 0 0 0 1 ⟨0, 0, 0⟩ 500 0 none [] 0 0
    (by norm_num [glob0, clamp, CONFIG.growthDelayPerLevel])).1 (by norm_num)
  have h2 := (C6_cut_regrow glob0 600 0 0 0 0 0 0 1 0 0 0 1 ⟨0, 0, 0⟩ 500 0 none [] 0 0
    (by norm_num [glob0, clamp, CONFIG.growthDelayPerLevel])).2 (by norm_num)
  exact ⟨h1, h2.1⟩

/-- Trace of one fruit across frames: `dh n` gives the frame's
`(deltaMs, hydration)` pair, and the second component is the running
`fruitsRipened` counter. -/
def fruitTrace (dh : ℕ → ℝ × ℝ) (f0 : Fruit) (c0 : ℤ) : ℕ → Fruit × ℤ
  | 0 => (f0, c0)
  | n + 1 =>
    fruitStep (dh n).1 (dh n).2 (fruitTrace dh f0 c0 n).2 (fruitTrace dh f0 c0 n).1

/-- One `fruitStep`: ripeness advances monotonically within `[0, 1.2]`, the
`counted` flag is the disjunction of its old value and the ripeness crossing
0.98, and the counter increments exactly on a first crossing (else stays). -/
theorem fruitStep_props (d h : ℝ) (hd : 0 ≤ d) (hh : 0 ≤ h) (c : ℤ) (f : Fruit)
    (hr0 : 0 ≤ f.ripeness) (hr1 : f.ripeness ≤ 1.2) :
    f.ripeness ≤ (fruitStep d h c f).1.ripeness ∧
    0 ≤ (fruitStep d h c f).1.ripeness ∧
    (fruitStep d h c f).1.ripeness ≤ 1.2 ∧
    ((fruitStep d h c f).1.counted = true ↔
      (f.counted = true ∨ 0.98 < (fruitStep d h c f).1.ripeness)) ∧
    ((fruitStep d h c f).2 = c + 1 ↔
      (f.counted = false ∧ 0.98 < (fruitStep d h c f).1.ripeness)) ∧
    ((fruitStep d h c f).2 = c ∨ (fruitStep d h c f).2 = c + 1) := by
  have hcl : f.ripeness ≤ clamp (f.ripeness + d * 0.00005 + h * 0.0001) 0 1.2 ∧
      0 ≤ clamp (f.ripeness + d * 0.00005 + h * 0.0001) 0 1.2 ∧
      clamp (f.ripeness + d * 0.00005 + h * 0.0001) 0 1.2 ≤ 1.2 := by
    unfold clamp
    refine ⟨le_min hr1 (le_trans (by nlinarith) (le_max_right _ _)), ?_, min_le_left _ _⟩
    exact le_min (by norm_num) (le_max_left _ _)
  simp only [fruitStep]
  split_ifs with hcond
  · refine ⟨hcl.1, hcl.2.1, hcl.2.2, ?_, ?_, Or.inr (by simp)⟩
    · simp [hcond.1]
    · simp [hcond.1, hcond.2]
  · push_neg at hcond
    refine ⟨hcl.1, hcl.2.1, hcl.2.2, ?_, ?_, Or.inl (by simp)⟩
    · constructor
      · exact fun hcc => Or.inl (by simpa using hcc)
      · intro hor
        rcases hor with hcc | hrp
        · simpa using hcc
        · have := hcond (by simpa using hrp)
          simpa using this
    · constructor
      · intro habs
        have : c = c + 1 := by simpa using habs
        omega
      · intro hand
        have h2 := hcond (by simpa using hand.2)
        exact absurd hand.1 (by simpa using h2)

/-- Along a fruit trace with nonnegative frame deltas and hydration, ripeness
stays in `[0, 1.2]`, grows monotonically, and `counted` holds exactly when
ripeness has exceeded 0.98. -/
theorem fruitTrace_invariant (dh : ℕ → ℝ × ℝ) (f0 : Fruit) (c0 : ℤ)
    (hdh : ∀ n, 0 ≤ (dh n).1 ∧ 0 ≤ (dh n).2)
    (hf0c : f0.counted = false) (hr0 : 0 ≤ f0.ripeness) (hr98 : f0.ripeness ≤ 0.98) :
    ∀ n, 0 ≤ (fruitTrace dh f0 c0 n).1.ripeness ∧
      (fruitTrace dh f0 c0 n).1.ripeness ≤ 1.2 ∧
      ((fruitTrace dh f0 c0 n).1.counted = true ↔
        0.98 < (fruitTrace dh f0 c0 n).1.ripeness) ∧
      (fruitTrace dh f0 c0 n).1.ripeness ≤ (fruitTrace dh f0 c0 (n + 1)).1.ripeness := by
  intro n
  induction n with
  | zero =>
    have hp := fruitStep_props (dh 0).1 (dh 0).2 (hdh 0).1 (hdh 0).2 c0 f0 hr0
      (by linarith)
    simp only [fruitTrace]
    refine ⟨hr0, by linarith, ?_, hp.1⟩
    rw [hf0c]
    constructor
    · intro hfalse
      exact absurd hfalse (by simp)
    · intro hrp
      exact absurd hrp (not_lt.mpr hr98)
  | succ n ih =>
    obtain ⟨ih0, ih1, ih2, ih3⟩ := ih
    have hp := fruitStep_props (dh n).1 (dh n).2 (hdh n).1 (hdh n).2
      (fruitTrace dh f0 c0 n).2 (fruitTrace dh f0 c0 n).1 ih0 ih1
    have e : fruitTrace dh f0 c0 (n + 1) =
        fruitStep (dh n).1 (dh n).2 (fruitTrace dh f0 c0 n).2 (fruitTrace dh f0 c0 n).1 := rfl
    refine ⟨by rw [e]; exact hp.2.1, by rw [e]; exact hp.2.2.1, ?_, ?_⟩
    · rw [e]
      rw [hp.2.2.2.1]
      constructor
      · intro hor
        rcases hor with hc | hrp
        · exact lt_of_lt_of_le (ih2.mp hc) (by rw [e] at ih3; exact hp.1)
        · exact hrp
      · exact fun hrp => Or.inr hrp
    · have hrp1 : 0 ≤ (fruitTrace dh f0 c0 (n + 1)).1.ripeness := by
        rw [e]; exact hp.2.1
      have hrp2 : (fruitTrace dh f0 c0 (n + 1)).1.ripeness ≤ 1.2 := by
        rw [e]; exact hp.2.2.1
      have hp2 := fruitStep_props (dh (n + 1)).1 (dh (n + 1)).2 (hdh (n + 1)).1
        (hdh (n + 1)).2 (fruitTrace dh f0 c0 (n + 1)).2 (fruitTrace dh f0 c0 (n + 1)).1
        hrp1 hrp2
      exact hp2.1

/-- Ripeness along a fruit trace is monotone in time. -/
theorem fruitTrace_mono (dh : ℕ → ℝ × ℝ) (f0 : Fruit) (c0 : ℤ)
    (hdh : ∀ n, 0 ≤ (dh n).1 ∧ 0 ≤ (dh n).2)
    (hf0c : f0.counted = false) (hr0 : 0 ≤ f0.ripeness) (hr98 : f0.ripeness ≤ 0.98) :
    ∀ m n, m ≤ n →
      (fruitTrace dh f0 c0 m).1.ripeness ≤ (fruitTrace dh f0 c0 n).1.ripeness := by
  intro m n h
  induction n, h using Nat.le_induction with
  | base => exact le_refl _
  | succ n hmn ih =>
    exact le_trans ih
      (fruitTrace_invariant dh f0 c0 hdh hf0c hr0 hr98 n).2.2.2

/-- C10: each fruit increments the global `fruitsRipened` counter at most once
over its lifetime — the increment happens exactly when its ripeness first
exceeds 0.98, at which point its `counted` flag is set permanently — and the
counter is never negative: it only grows by these one-time ripenings and is
only decreased by `spawnSaplings`, floored at 0.  Freshly created fruits start
uncounted with ripeness at most 0.98. -/
theorem C10_fruit_counting (dh : ℕ → ℝ × ℝ) (f0 : Fruit) (c0 : ℤ)
    (hdh : ∀ n, 0 ≤ (dh n).1 ∧ 0 ≤ (dh n).2)
    (hf0c : f0.counted = false) (hr0 : 0 ≤ f0.ripeness)
    (hr98 : f0.ripeness ≤ 0.98) (hc0 : 0 ≤ c0) :
    (∀ n, (fruitTrace dh f0 c0 (n + 1)).2 = (fruitTrace dh f0 c0 n).2 + 1 ↔
      ((fruitTrace dh f0 c0 n).1.ripeness ≤ 0.98 ∧
        0.98 < (fruitTrace dh f0 c0 (n + 1)).1.ripeness)) ∧
    (∀ n, (fruitTrace dh f0 c0 n).1.counted = true ↔
      0.98 < (fruitTrace dh f0 c0 n).1.ripeness) ∧
    (∀ n, (fruitTrace dh f0 c0 (n + 1)).2 = (fruitTrace dh f0 c0 n).2 ∨
      (fruitTrace dh f0 c0 (n + 1)).2 = (fruitTrace dh f0 c0 n).2 + 1) ∧
    (∀ m n, (fruitTrace dh f0 c0 (m + 1)).2 = (fruitTrace dh f0 c0 m).2 + 1 →
      (fruitTrace dh f0 c0 (n + 1)).2 = (fruitTrace dh f0 c0 n).2 + 1 → m = n) ∧
    (∀ n, 0 ≤ (fruitTrace dh f0 c0 n).2) ∧
    (∀ (o : Oracle) (s : SimState), 0 ≤ s.fruitsRipened →
      0 ≤ (spawnSaplings o s).fruitsRipened) ∧
    (∀ (bs : ℝ) (rnd : ℕ → ℝ) (ri : ℕ), (∀ j, 0 ≤ rnd j ∧ rnd j < 1) →
      ∀ fr ∈ (makeFruits bs rnd ri).1,
        fr.counted = false ∧ 0 ≤ fr.ripeness ∧ fr.ripeness ≤ 0.98) := by
  have hinv := fruitTrace_invariant dh f0 c0 hdh hf0c hr0 hr98
  have hstep : ∀ n, fruitTrace dh f0 c0 (n + 1) =
      fruitStep (dh n).1 (dh n).2 (fruitTrace dh f0 c0 n).2 (fruitTrace dh f0 c0 n).1 :=
    fun n => rfl
  have hprops := fun n => fruitStep_props (dh n).1 (dh n).2 (hdh n).1 (hdh n).2
    (fruitTrace dh f0 c0 n).2 (fruitTrace dh f0 c0 n).1 (hinv n).1 (hinv n).2.1
  have hinc : ∀ n, (fruitTrace dh f0 c0 (n + 1)).2 = (fruitTrace dh f0 c0 n).2 + 1 ↔
      ((fruitTrace dh f0 c0 n).1.ripeness ≤ 0.98 ∧
        0.98 < (fruitTrace dh f0 c0 (n + 1)).1.ripeness) := by
    intro n
    rw [hstep n]
    rw [(hprops n).2.2.2.2.1]
    constructor
    · intro ⟨hcf, hrp⟩
      refine ⟨?_, hrp⟩
      by_contra hgt
      push_neg at hgt
      have := (hinv n).2.2.1.mpr hgt
      rw [this] at hcf
      exact absurd hcf (by simp)
    · intro ⟨hle, hrp⟩
      refine ⟨?_, hrp⟩
      rcases Bool.eq_false_or_eq_true (fruitTrace dh f0 c0 n).1.counted with hb | hb
      · have := (hinv n).2.2.1.mp hb
        exact absurd this (not_lt.mpr hle)
      · exact hb
  refine ⟨hinc, fun n => (hinv n).2.2.1, ?_, ?_, ?_, ?_, ?_⟩
  · intro n
    rw [hstep n]
    exact (hprops n).2.2.2.2.2
  · intro m n hm hn
    rcases lt_trichotomy m n with hlt | heq | hgt
    · exfalso
      have h1 := (hinc m).mp hm
      have h2 := (hinc n).mp hn
      have hmono := fruitTrace_mono dh f0 c0 hdh hf0c hr0 hr98 (m + 1) n (by omega)
      linarith [h1.2, h2.1]
    · exact heq
    · exfalso
      have h1 := (hinc m).mp hm
      have h2 := (hinc n).mp hn
      have hmono := fruitTrace_mono dh f0 c0 hdh hf0c hr0 hr98 (n + 1) m (by omega)
      linarith [h2.2, h1.1]
  · intro n
    induction n with
    | zero => exact hc0
    | succ n ih =>
      rcases (by rw [hstep n]; exact (hprops n).2.2.2.2.2 :
        (fruitTrace dh f0 c0 (n + 1)).2 = (fruitTrace dh f0 c0 n).2 ∨
        (fruitTrace dh f0 c0 (n + 1)).2 = (fruitTrace dh f0 c0 n).2 + 1) with he | he
      · rw [he]; exact ih
      · rw [he]; omega
  · intro o s hs
    simp only [spawnSaplings]
    exact le_max_left 0 _
  · intro bs rnd ri hrnd fr hfr
    simp only [makeFruits, List.mem_map, List.mem_range] at hfr
    obtain ⟨idx, _, hidx⟩ := hfr
    rw [← hidx]
    refine ⟨rfl, ?_, ?_⟩
    · have := hrnd (ri + idx)
      simp only
      nlinarith [this.1]
    · have := hrnd (ri + idx)
      simp only
      nlinarith [this.2, this.1]

/-- Witness for C10 on a concrete fruit trace with 16 ms frames and no
hydration: the counter stays nonnegative and the fresh fruit is uncounted. -/
theorem C10_fruit_counting_witness :
    (0 : ℤ) ≤ (fruitTrace (fun _ => (16, 0)) ⟨0, 0, 0.1, false⟩ 0 3).2 ∧
    ((fruitTrace (fun _ => (16, 0)) ⟨0, 0, 0.1, false⟩ 0 0).1.counted = true ↔
      0.98 < (fruitTrace (fun _ => (16, 0)) ⟨0, 0, 0.1, false⟩ 0 0).1.ripeness) := by
  have h := C10_fruit_counting (fun _ => (16, 0)) ⟨0, 0, 0.1, false⟩ 0
    (fun _ => ⟨by norm_num, by norm_num⟩) rfl (by norm_num) (by norm_num) (by norm_num)
  exact ⟨h.2.2.2.2.1 3, h.2.1 0⟩

/-- The root node returned by `createBranch` carries exactly the depth,
length, angle and seed it was called with. -/
theorem createBranch_fields (sw : ℕ → ℝ) (depth : ℕ) (L a s : ℝ) (i ac : ℕ) :
    (createBranch sw depth L a s i ac).1.depth = depth ∧
    (createBranch sw depth L a s i ac).1.length = L ∧
    (createBranch sw depth L a s i ac).1.angle = a ∧
    (createBranch sw depth L a s i ac).1.seed = s := by
  by_cases h : CONFIG.maxDepth ≤ depth
  · rw [createBranch_leaf _ _ _ _ _ _ _ h]
    exact ⟨rfl, rfl, rfl, rfl⟩
  · by_cases h3 : 1 < depth ∧ 0.58 < seededRandom (s + 4)
    · rw [createBranch_three _ _ _ _ _ _ _ h h3]
      exact ⟨rfl, rfl, rfl, rfl⟩
    · rw [createBranch_two _ _ _ _ _ _ _ h h3]
      exact ⟨rfl, rfl, rfl, rfl⟩

/-- The seed-derived `spread` lies in `[0.25, 0.60]` radians. -/
theorem spreadOf_mem (s : ℝ) : 0.25 ≤ spreadOf s ∧ spreadOf s ≤ 0.60 := by
  obtain ⟨h1, h2⟩ := seededRandom_mem (s + 1)
  unfold spreadOf
  constructor <;> nlinarith

/-- The seed-derived `lean` lies in `[-0.09, 0.09]` radians. -/
theorem leanOf_mem (s : ℝ) : -0.09 ≤ leanOf s ∧ leanOf s ≤ 0.09 := by
  obtain ⟨h1, h2⟩ := seededRandom_mem (s + 3)
  unfold leanOf
  constructor <;> nlinarith

/-- The seed-derived `lenFactor` lies in
`[0.68 - 0.01*depth, 0.78 - 0.01*depth]`. -/
theorem lenFactorOf_mem (depth : ℕ) (s : ℝ) :
    0.68 - (depth : ℝ) * 0.01 ≤ lenFactorOf depth s ∧
    lenFactorOf depth s ≤ 0.78 - (depth : ℝ) * 0.01 := by
  obtain ⟨h1, h2⟩ := seededRandom_mem (s + 2)
  unfold lenFactorOf
  constructor <;> nlinarith

/-- Branching parameters of every non-leaf node of a generated subtree
(auxiliary induction on remaining depth). -/
theorem createBranch_split_aux (n : ℕ) :
    ∀ depth, CONFIG.maxDepth - depth ≤ n →
    ∀ (sw : ℕ → ℝ) (L a s : ℝ) (i ac : ℕ),
    ∀ b ∈ allNodes (createBranch sw depth L a s i ac).1,
    b.depth < CONFIG.maxDepth →
    ∃ sp lg lf, 0.25 ≤ sp ∧ sp ≤ 0.60 ∧ -0.09 ≤ lg ∧ lg ≤ 0.09 ∧
      0.68 - (b.depth : ℝ) * 0.01 ≤ lf ∧ lf ≤ 0.78 - (b.depth : ℝ) * 0.01 ∧
      ∃ c1 c2 rest, b.children = c1 :: c2 :: rest ∧
        c1.angle = b.angle + sp + lg ∧ c1.length = b.length * lf ∧
        c2.angle = b.angle - sp + lg ∧ c2.length = b.length * lf := by
  induction n with
  | zero =>
    intro depth hd sw L a s i ac b hb hbd
    have h : CONFIG.maxDepth ≤ depth := by omega
    rw [createBranch_leaf _ _ _ _ _ _ _ h] at hb
    simp [allNodes, allNodesL] at hb
    subst hb
    simp [Branch.depth] at hbd
    omega
  | succ n ih =>
    intro depth hd sw L a s i ac b hb hbd
    by_cases h : CONFIG.maxDepth ≤ depth
    · rw [createBranch_leaf _ _ _ _ _ _ _ h] at hb
      simp [allNodes, allNodesL] at hb
      subst hb
      simp [Branch.depth] at hbd
      omega
    · have hd' : CONFIG.maxDepth - (depth + 1) ≤ n := by
        unfold CONFIG.maxDepth at *; omega
      by_cases h3 : 1 < depth ∧ 0.58 < seededRandom (s + 4)
      · rw [createBranch_three _ _ _ _ _ _ _ h h3] at hb
        simp only [allNodes, allNodesL, List.append_nil, List.mem_cons,
          List.mem_append] at hb
        rcases hb with hb | hb | hb | hb
        · subst hb
          refine ⟨spreadOf s, leanOf s, lenFactorOf depth s,
            (spreadOf_mem s).1, (spreadOf_mem s).2, (leanOf_mem s).1, (leanOf_mem s).2,
            ?_, ?_, _, _, _, rfl, ?_, ?_, ?_, ?_⟩
          · simpa [Branch.depth] using (lenFactorOf_mem depth s).1
          · simpa [Branch.depth] using (lenFactorOf_mem depth s).2
          · simpa [Branch.angle] using (createBranch_fields sw (depth + 1)
              (L * lenFactorOf depth s) (a + spreadOf s + leanOf s)
              (s * 1.71 + 1) (i + 1) (ac + 1)).2.2.1
          · simpa [Branch.length] using (createBranch_fields sw (depth + 1)
              (L * lenFactorOf depth s) (a + spreadOf s + leanOf s)
              (s * 1.71 + 1) (i + 1) (ac + 1)).2.1
          · simpa [Branch.angle] using (createBranch_fields sw (depth + 1)
              (L * lenFactorOf depth s) (a - spreadOf s + leanOf s)
              (s * 1.71 + 2) _ _).2.2.1
          · simpa [Branch.length] using (createBranch_fields sw (depth + 1)
              (L * lenFactorOf depth s) (a - spreadOf s + leanOf s)
              (s * 1.71 + 2) _ _).2.1
        · exact ih _ hd' _ _ _ _ _ _ b hb hbd
        · exact ih _ hd' _ _ _ _ _ _ b hb hbd
        · exact ih _ hd' _ _ _ _ _ _ b hb hbd
      · rw [createBranch_two _ _ _ _ _ _ _ h h3] at hb
        simp only [allNodes, allNodesL, List.append_nil, List.mem_cons,
          List.mem_append] at hb
        rcases hb with hb | hb | hb
        · subst hb
          refine ⟨spreadOf s, leanOf s, lenFactorOf depth s,
            (spreadOf_mem s).1, (spreadOf_mem s).2, (leanOf_mem s).1, (leanOf_mem s).2,
            ?_, ?_, _, _, _, rfl, ?_, ?_, ?_, ?_⟩
          · simpa [Branch.depth] using (lenFactorOf_mem depth s).1
          · simpa [Branch.depth] using (lenFactorOf_mem depth s).2
          · simpa [Branch.angle] using (createBranch_fields sw (depth + 1)
              (L * lenFactorOf depth s) (a + spreadOf s + leanOf s)
              (s * 1.71 + 1) (i + 1) (ac + 1)).2.2.1
          · simpa [Branch.length] using (createBranch_fields sw (depth + 1)
              (L * lenFactorOf depth s) (a + spreadOf s + leanOf s)
              (s * 1.71 + 1) (i + 1) (ac + 1)).2.1
          · simpa [Branch.angle] using (createBranch_fields sw (depth + 1)
              (L * lenFactorOf depth s) (a - spreadOf s + leanOf s)
              (s * 1.71 + 2) _ _).2.2.1
          · simpa [Branch.length] using (createBranch_fields sw (depth + 1)
              (L * lenFactorOf depth s) (a - spreadOf s + leanOf s)
              (s * 1.71 + 2) _ _).2.1
        · exact ih _ hd' _ _ _ _ _ _ b hb hbd
        · exact ih _ hd' _ _ _ _ _ _ b hb hbd

/-- C9 (amended): for every node of a generated tree at depth below
`maxDepth`, the seed-derived branching parameters satisfy
`spread ∈ [0.25, 0.60]` rad, `lean ∈ [-0.09, 0.09]` rad and
`lenFactor ∈ [0.68 - 0.01·depth, 0.78 - 0.01·depth]` (the source subtracts
`depth * 0.01`, so below depth 0 the factor can drop below 0.68), and the two
primary children receive angles `parentAngle ± spread + lean` and length
`parentLength * lenFactor`. -/
theorem C9_branching_parameters (sw : ℕ → ℝ) (L a s : ℝ) (i ac : ℕ) :
    ∀ b ∈ allNodes (createBranch sw 0 L a s i ac).1,
    b.depth < CONFIG.maxDepth →
    ∃ sp lg lf, 0.25 ≤ sp ∧ sp ≤ 0.60 ∧ -0.09 ≤ lg ∧ lg ≤ 0.09 ∧
      0.68 - (b.depth : ℝ) * 0.01 ≤ lf ∧ lf ≤ 0.78 - (b.depth : ℝ) * 0.01 ∧
      ∃ c1 c2 rest, b.children = c1 :: c2 :: rest ∧
        c1.angle = b.angle + sp + lg ∧ c1.length = b.length * lf ∧
        c2.angle = b.angle - sp + lg ∧ c2.length = b.length * lf :=
  fun b hb hbd =>
    createBranch_split_aux CONFIG.maxDepth 0 (by omega) sw L a s i ac b hb hbd

/-- Witness for C9 (amended) at the root of a concrete generated tree. -/
theorem C9_branching_parameters_witness :
    ∃ sp lg lf, 0.25 ≤ sp ∧ sp ≤ 0.60 ∧ -0.09 ≤ lg ∧ lg ≤ 0.09 ∧
      0.68 - ((createBranch (fun _ => 0) 0 1 0 0 0 0).1.depth : ℝ) * 0.01 ≤ lf ∧
      lf ≤ 0.78 - ((createBranch (fun _ => 0) 0 1 0 0 0 0).1.depth : ℝ) * 0.01 ∧
      ∃ c1 c2 rest,
        (createBranch (fun _ => 0) 0 1 0 0 0 0).1.children = c1 :: c2 :: rest ∧
        c1.angle = (createBranch (fun _ => 0) 0 1 0 0 0 0).1.angle + sp + lg ∧
        c1.length = (createBranch (fun _ => 0) 0 1 0 0 0 0).1.length * lf ∧
        c2.angle = (createBranch (fun _ => 0) 0 1 0 0 0 0).1.angle - sp + lg ∧
        c2.length = (createBranch (fun _ => 0) 0 1 0 0 0 0).1.length * lf :=
  C9_branching_parameters (fun _ => 0) 1 0 0 0 0 _ (self_mem_allNodes _)
    (by
      rw [(createBranch_fields (fun _ => 0) 0 1 0 0 0 0).1]
      unfold CONFIG.maxDepth
      omega)

/-- Root seed chosen so that the depth-1 first child's `lenFactor` hash is
exactly 0: `(badSeed * 1.71 + 3) * 9341.13 = -π/2`. -/
def badSeed : ℝ := (-(Real.pi) / (2 * 9341.13) - 3) / 1.71

/-- At `badSeed` the hash driving the depth-1 child's `lenFactor` is 0. -/
theorem badSeed_key : seededRandom (badSeed * 1.71 + 1 + 2) = 0 := by
  unfold seededRandom badSeed
  have harg : ((-(Real.pi) / (2 * 9341.13) - 3) / 1.71 * 1.71 + 1 + 2) * 9341.13 =
      -(Real.pi / 2) := by
    field_simp
    ring
  rw [harg, Real.sin_neg, Real.sin_pi_div_two]
  norm_num

/-- Counterexample to C9 as stated: in the tree generated from root seed
`badSeed` (unit root length), the first depth-1 child has positive length but
its own children's length is strictly below `0.68 ×` its length — the length
factor at depth 1 is 0.67, outside the claimed `[0.68, 0.78]`. -/
theorem C9_lenFactor_counterexample :
    ∃ c1 ∈ (createBranch (fun _ => 0) 0 1 0 badSeed 0 0).1.children,
    ∃ g1 ∈ c1.children, 0 < c1.length ∧ g1.length < 0.68 * c1.length := by
  have h0 : ¬ CONFIG.maxDepth ≤ 0 := by unfold CONFIG.maxDepth; omega
  have h1 : ¬ CONFIG.maxDepth ≤ 1 := by unfold CONFIG.maxDepth; omega
  have h30 : ¬ ((1 : ℕ) < 0 ∧ 0.58 < seededRandom (badSeed + 4)) := by simp
  have h31 : ¬ ((1 : ℕ) < 1 ∧ 0.58 < seededRandom (badSeed * 1.71 + 1 + 4)) := by simp
  rw [createBranch_two _ _ _ _ _ _ _ h0 h30]
  simp only [Branch.children]
  refine ⟨_, List.mem_cons_self _ _, ?_⟩
  rw [createBranch_two _ _ _ _ _ _ _ h1 h31]
  simp only [Branch.children]
  refine ⟨_, List.mem_cons_self _ _, ?_, ?_⟩
  · simp only [Branch.length]
    obtain ⟨hl, _⟩ := lenFactorOf_mem 0 badSeed
    push_cast at hl
    nlinarith
  · rw [(createBranch_fields (fun _ => 0) (1 + 1)
      (1 * lenFactorOf 0 badSeed * lenFactorOf 1 (badSeed * 1.71 + 1))
      (0 + spreadOf badSeed + leanOf badSeed +
        spreadOf (badSeed * 1.71 + 1) + leanOf (badSeed * 1.71 + 1))
      ((badSeed * 1.71 + 1) * 1.71 + 1) (0 + 1 + 1) (0 + 1 + 1)).2.1]
    simp only [Branch.length]
    have hl1 : lenFactorOf 1 (badSeed * 1.71 + 1) = 0.67 := by
      unfold lenFactorOf
      rw [badSeed_key]
      norm_num
    obtain ⟨hl, _⟩ := lenFactorOf_mem 0 badSeed
    push_cast at hl
    rw [hl1]
    nlinarith
